import Mathlib

/-! WysiHat.AdvancedToolbar

A shallow embedding of `src/wysihat/advanced_toolbar.js` and
`src/wysihat/advanced_toolbar/button_sets.js`: the toolbar's registration
methods, the listeners they bind, the observers they subscribe on the editor,
and the visual updates those observers make.

The editor is an external collaborator.  It is held as an opaque state with
its three entry points (`execCommand`, `queryCommandState`,
`getSelectedStyles`) and a record of the commands and notifications issued on
it.  The script runtime, the DOM toolkit and the page around the toolbar are
not part of the repository: what the toolbar asks of them is held in `Host`,
as functions that are not interpreted, with the few laws the theorems use.
-/

namespace WysiHat

/-! ## Values of the script runtime -/

/-- Errors the script runtime raises; the source throws none of its own. -/
inductive JSError where
  | typeError
  deriving DecidableEq, Repr

/-- An argument passed to an editor command. -/
inductive Arg where
  | str (s : String)
  | bool (b : Bool)
  deriving DecidableEq, Repr

/-- A command or notification issued on the editor. `other` stands for any
editor method a caller-supplied handler calls, such as `boldSelection`. -/
inductive Call where
  | execCommand (args : List Arg)
  | fire (eventName : String)
  | other (method : String)
  deriving DecidableEq, Repr

/-- Lower-casing of the letters A to Z and of nothing else. -/
def asciiLowerCase (s : String) : String :=
  String.mk (s.data.map Char.toLower)

/-- A string of ASCII characters only. -/
def isAscii (s : String) : Bool :=
  s.data.all (fun c => decide (c.val < 128))

/-- A character of a plain name: an ASCII letter or digit, a hyphen or an
underscore. -/
def isPlainChar (c : Char) : Bool :=
  c.isAlphanum || c == '-' || c == '_'

/-- A plain name: one or more plain characters, so neither empty nor holding
whitespace or a character that is special in a regular expression. -/
def isPlainName (s : String) : Bool :=
  !s.data.isEmpty && s.data.all isPlainChar

/-- The script runtime, the DOM toolkit and the page around the toolbar, none
of which is in the repository.

* `idsBefore` and `idsAfter` are the ids carried by elements that precede and
  follow the toolbar container in document order.
* `toNumberIsZero s` tells whether the runtime converts the string `s` to the
  number zero, which is what the comparison of a string with `false` tests.
* `toLowerCase` is the runtime's method of that name on strings.
* `hasClassName attribute name` is the toolkit's `Element#hasClassName` on an
  element whose class attribute is `attribute`.
* `classTokens attribute` are the class names a class attribute holds, in
  order: its parts between whitespace, as the toolkit's class methods tell them
  apart.
* `inheritedMember key` is what calling the member `key` that a plain object
  inherits does: `none` when there is no such member, otherwise whether the
  call returns or raises. Such a member runs on the object it is looked up on
  and issues nothing on the editor.

The three laws are what the runtime and the toolkit guarantee on plain input:
`toLowerCase` lower-cases A to Z on ASCII strings, a plain name is found on a
`'button'` element exactly when it is `'button'`, and a plain name is one class
name. -/
structure Host where
  idsBefore : List String
  idsAfter : List String
  toNumberIsZero : String → Bool
  toLowerCase : String → String
  hasClassName : String → String → Bool
  classTokens : String → List String
  inheritedMember : String → Option (Except JSError Unit)
  toLowerCase_ascii : ∀ s : String, isAscii s = true → toLowerCase s = asciiLowerCase s
  hasClassName_button : ∀ name : String, isPlainName name = true →
    hasClassName "button" name = decide (name = "button")
  classTokens_plain : ∀ name : String, isPlainName name = true → classTokens name = [name]

/-- The entry points of the editor that the toolbar uses, over the editor's
own state `σ`. `getSelectedStyles` returns a hash, held as its pairs. -/
structure EditorApi (σ : Type) where
  execCommand : List Arg → σ → σ
  queryCommandState : String → σ → Bool
  getSelectedStyles : σ → List (String × String)

/-- The editor object: its entry points, its current state, and the commands
and notifications that the toolbar's listeners and the handlers they run have
issued on it so far, oldest first. -/
structure Editor (σ : Type) where
  api : EditorApi σ
  state : σ
  log : List Call

/-- A function of the editor run for its effect, as in `function(editor) {...}`. -/
abbrev Handler (σ : Type) := Editor σ → Editor σ

/-- The call `editor.execCommand(args...)`. -/
def Editor.execCommand {σ : Type} (editor : Editor σ) (args : List Arg) : Editor σ :=
  { editor with
    state := editor.api.execCommand args editor.state
    log := editor.log ++ [Call.execCommand args] }

/-- The call `editor.queryCommandState(name)`. -/
def Editor.queryCommandState {σ : Type} (editor : Editor σ) (name : String) : Bool :=
  editor.api.queryCommandState name editor.state

/-- The expression `editor.getSelectedStyles().get(name)`; `none` is `undefined`. -/
def Editor.selectedStyle {σ : Type} (editor : Editor σ) (name : String) : Option String :=
  (editor.api.getSelectedStyles editor.state).lookup name

/-- Truthiness of a string-valued hash entry: absent and empty are falsy. -/
def truthy : Option String → Bool
  | none => false
  | some s => s != ""

/-! ## Elements -/

/-- The `a` element of a button: its `href`, its class attribute as the list
of the class names it holds, and the markup handed to `update`. -/
structure Anchor where
  href : String
  className : List String
  content : String
  deriving DecidableEq, Repr

/-- An `option` element: its `id`, the markup handed to `update`, and its
`selected` property. -/
structure OptionElement where
  id : String
  content : String
  selected : Bool
  deriving DecidableEq, Repr

/-- A class name that is a plain name. On such a name the toolkit's class
methods act on the list of class names as the three definitions below say. -/
def PlainName : Type := { s : String // isPlainName s = true }

/-- The class name 'selected'. -/
def selectedClass : PlainName := ⟨"selected", by decide⟩

/-- The toolkit's `Element#hasClassName` for a plain name: the name is one of
the class names of the element. -/
def hasClassName (className : List String) (c : PlainName) : Bool :=
  decide (c.val ∈ className)

/-- The toolkit's `Element#addClassName` for a plain name: the name is added
at the end unless the element already has it. -/
def addClassName (className : List String) (c : PlainName) : List String :=
  if hasClassName className c then className else className ++ [c.val]

/-- The toolkit's `Element#removeClassName` for a plain name: its first
occurrence is removed. -/
def removeClassName (className : List String) (c : PlainName) : List String :=
  className.erase c.val

/-- The previousState variable of a selectbox observer: the boolean `false` it
starts at, or the last query result it stored (`none` is `undefined`). -/
inductive Cached where
  | initial
  | value (state : Option String)
  deriving DecidableEq, Repr

/-! ## Option hashes -/

/-- The options hash of `addButton`. A key that is absent is `none`. -/
structure ButtonOptions (σ : Type) where
  name : Option String
  label : Option String
  handler : Option (Handler σ)
  query : Option (Editor σ → Bool)

/-- The options hash of `addSelectbox`. A caller-supplied `handler` is the
object indexed by the control's value in `observeOptionSelect`. -/
structure SelectboxOptions (σ : Type) where
  name : Option String
  label : Option String
  handler : Option (List (String × Handler σ))
  query : Option (Editor σ → Option String)
  options : Option (List String)

/-! ## Registered controls -/

/-- A registered button: the element appended to the container, the handler
bound to its click by `observeButtonClick`, and the closure subscribed by
`observeStateChanges` (its query handler and its `previousState`).
`updates` records the states `updateButtonState` was called with for this
element, oldest first. -/
structure Button (σ : Type) where
  element : Anchor
  name : String
  handler : Handler σ
  query : Editor σ → Bool
  previousState : Bool
  updates : List Bool

/-- A registered selectbox: the option children of the `select` element
appended to the container, the object indexed on change by
`observeOptionSelect`, and the closure subscribed by
`observeStateChangesSelectbox`. -/
structure Selectbox (σ : Type) where
  element : List OptionElement
  name : String
  handler : List (String × Handler σ)
  query : Editor σ → Option String
  previousState : Cached

/-- A child of the toolbar container with what was registered for it. -/
inductive Control (σ : Type) where
  | button (b : Button σ)
  | selectbox (s : Selectbox σ)

/-- The toolbar: the page it lives in, the editor it is bound to, the children
of its container element in document order, the errors that listeners and
observers raised into the event dispatch, and the number of events `Event.stop`
was called on. Observers run in the order of registration, which is the order
of the children. -/
structure Toolbar (σ : Type) where
  host : Host
  editor : Editor σ
  element : List (Control σ)
  uncaught : List JSError
  stopped : Nat

/-- The constructor with `createToolbarElement`: a toolbar whose container is
empty. -/
def createToolbar {σ : Type} (host : Host) (editor : Editor σ) : Toolbar σ :=
  { host := host, editor := editor, element := [], uncaught := [], stopped := 0 }

/-! ## Handler resolution -/

/-- The expression `options.handler` and `options.query` on the hash built by
`$H`: the hash keeps its entries apart from its own properties, so the direct
property is `undefined`. -/
def directProperty {α : Type} : Option α := none

/-- The function `buttonHandler(name, options)`. -/
def buttonHandler {σ : Type} (name : String) (options : ButtonOptions σ) : Handler σ :=
  match (directProperty : Option (Handler σ)) with
  | some h => h
  | none =>
    match options.handler with
    | some h => h
    | none => fun editor => editor.execCommand [Arg.str name]

/-- The function `buttonStateHandler(name, options)`. -/
def buttonStateHandler {σ : Type} (name : String) (options : ButtonOptions σ) :
    Editor σ → Bool :=
  match (directProperty : Option (Editor σ → Bool)) with
  | some q => q
  | none =>
    match options.query with
    | some q => q
    | none => fun editor => editor.queryCommandState name

/-- The assignment `handlers[option] = handler` on a plain object. -/
def setProperty {α : Type} (object : List (String × α)) (key : String) (value : α) :
    List (String × α) :=
  (key, value) :: object

/-- What the lookup `handler[key]` on such an object finds: an entry of the
object itself, a member the object inherits, or `undefined`. -/
inductive Member (α : Type) where
  | own (value : α)
  | inherited (call : Except JSError Unit)
  | undefined

/-- The lookup `handler[key]` on such an object: its own entry when it has
one, otherwise the member of that name it inherits, if any. -/
def getProperty {α : Type} (host : Host) (object : List (String × α)) (key : String) :
    Member α :=
  match object.lookup key with
  | some value => Member.own value
  | none =>
    match host.inheritedMember key with
    | some call => Member.inherited call
    | none => Member.undefined

/-- The function `selectboxHandler(name, options)`. It fails with a TypeError
when no handler is supplied and the `options` entry is absent. -/
def selectboxHandler {σ : Type} (name : String) (options : SelectboxOptions σ) :
    Except JSError (List (String × Handler σ)) :=
  match (directProperty : Option (List (String × Handler σ))) with
  | some h => .ok h
  | none =>
    match options.handler with
    | some h => .ok h
    | none =>
      match options.options with
      | none => .error JSError.typeError
      | some opts =>
        .ok (opts.foldl
          (fun handlers option =>
            setProperty handlers option
              (fun editor => editor.execCommand [Arg.str name, Arg.bool false, Arg.str option]))
          [])

/-- The function `selectboxStateHandler(name, options)`. -/
def selectboxStateHandler {σ : Type} (name : String) (options : SelectboxOptions σ) :
    Editor σ → Option String :=
  match (directProperty : Option (Editor σ → Option String)) with
  | some q => q
  | none =>
    match options.query with
    | some q => q
    | none => fun editor => editor.selectedStyle name

/-! ## Element creation -/

/-- A hash entry joined to a string with `+`: an absent entry reads
`undefined`. -/
def concatValue : Option String → String
  | none => "undefined"
  | some s => s

/-- The element built by `createButtonElement` from the options hash after the
name was defaulted: `new Element('a', {'class': 'button', 'href': '#'})`, then
`update('<span>' + label + '</span>')`, then `addClassName(name)`. The toolkit's
`addClassName` asks `hasClassName` about the element, whose class attribute is
'button', and when the answer is no it appends a space and the name to the
attribute, which then holds 'button' and the class names of the name. -/
def createButtonElement (host : Host) (name : String) (label : Option String) : Anchor :=
  { href := "#"
    className :=
      if host.hasClassName "button" name then ["button"]
      else "button" :: host.classTokens name
    content := "<span>" ++ concatValue label ++ "</span>" }

/-- Appending an option to a `select`: a select that shows one option marks the
first option it receives as selected, the others arrive unselected. -/
def appendOption (select : List OptionElement) (id content : String) : List OptionElement :=
  select ++ [{ id := id, content := content, selected := select.isEmpty }]

/-- The option children built by `createSelectboxElement`. -/
def createSelectboxElement (opts : List String) : List OptionElement :=
  opts.foldl (fun selectbox option => appendOption selectbox option option) []

/-! ## Registration -/

/-- The expression `options.get('label').toLowerCase()`: calling the method
on an absent label is a TypeError. -/
def lowerCasedLabel (host : Host) : Option String → Except JSError String
  | none => .error JSError.typeError
  | some l => .ok (host.toLowerCase l)

/-- The first lines of `addButton` and `addSelectbox`: a falsy `name` is
replaced by the lower-cased `label`. -/
def defaultName (host : Host) (name label : Option String) : Except JSError String :=
  match name with
  | none => lowerCasedLabel host label
  | some n => if truthy (some n) then .ok n else lowerCasedLabel host label

/-- The method `addButton(options, handler)`. The second argument is
overwritten by `var handler = this.buttonHandler(name, options)` before it is
read. -/
def addButton {σ : Type} (toolbar : Toolbar σ) (options : ButtonOptions σ)
    (_handler : Option (Handler σ)) : Except JSError (Toolbar σ) :=
  match defaultName toolbar.host options.name options.label with
  | .error e => .error e
  | .ok name =>
    let options := { options with name := some name }
    let button := createButtonElement toolbar.host name options.label
    let handler := buttonHandler name options
    let query := buttonStateHandler name options
    .ok { toolbar with
          element := toolbar.element ++ [Control.button
            { element := button, name := name, handler := handler, query := query,
              previousState := false, updates := [] }] }

/-- The method `addSelectbox(options, handler)`. Iterating an absent `options`
entry in `createSelectboxElement` is a TypeError, raised before the element is
appended; once the element is appended no later step fails. -/
def addSelectbox {σ : Type} (toolbar : Toolbar σ) (options : SelectboxOptions σ)
    (_handler : Option (List (String × Handler σ))) : Except JSError (Toolbar σ) :=
  match defaultName toolbar.host options.name options.label with
  | .error e => .error e
  | .ok name =>
    let options := { options with name := some name }
    match options.options with
    | none => .error JSError.typeError
    | some opts =>
      let selectbox := createSelectboxElement opts
      match selectboxHandler name options with
      | .error e => .error e
      | .ok handler =>
        let query := selectboxStateHandler name options
        .ok { toolbar with
              element := toolbar.element ++ [Control.selectbox
                { element := selectbox, name := name, handler := handler, query := query,
                  previousState := Cached.initial }] }

/-- The method `addButtonSet(set)`: `addButton(button)` for each entry in order.
An error raised by one call ends the iteration; it is returned with the toolbar
as the calls before it left it. -/
def addButtonSet {σ : Type} (toolbar : Toolbar σ) :
    List (ButtonOptions σ) → Toolbar σ × Option JSError
  | [] => (toolbar, none)
  | button :: set =>
    match addButton toolbar button none with
    | .error e => (toolbar, some e)
    | .ok toolbar => addButtonSet toolbar set

/-- The set `WysiHat.AdvancedToolbar.ButtonSets.Basic`. -/
def ButtonSets.Basic {σ : Type} : List (ButtonOptions σ) :=
  [ { name := none, label := some "Bold", handler := none, query := none },
    { name := none, label := some "Underline", handler := none, query := none },
    { name := none, label := some "Italic", handler := none, query := none } ]

/-! ## State observers -/

/-- The method `updateButtonState(element, name, state)`. -/
def updateButtonState (element : Anchor) (_name : String) (state : Bool) : Anchor :=
  if state then
    { element with className := addClassName element.className selectedClass }
  else
    { element with className := removeClassName element.className selectedClass }

/-- The callback subscribed by `observeStateChanges(element, name, handler)`,
run on one "wysihat:cursormove" notification. -/
def observeStateChanges {σ : Type} (editor : Editor σ) (b : Button σ) : Button σ :=
  let state := b.query editor
  if state != b.previousState then
    { b with
      previousState := state
      element := updateButtonState b.element b.name state
      updates := b.updates ++ [state] }
  else
    b

/-- The comparison `state != previousState` of the selectbox observer. Against
the initial `false`, `undefined` differs and a string differs unless it
converts to zero; two query results differ unless they are the same. -/
def looseNe (host : Host) (state : Option String) : Cached → Bool
  | Cached.initial =>
    match state with
    | none => true
    | some s => !host.toNumberIsZero s
  | Cached.value previous => state != previous

/-- Setting `selected = true` on the first option with the given id of a
`select` that shows one option: the other options lose their selection. -/
def selectOption (id : String) : List OptionElement → List OptionElement
  | [] => []
  | o :: os =>
    if o.id = id then
      { o with selected := true } :: os.map (fun o => { o with selected := false })
    else
      { o with selected := false } :: selectOption id os

/-- Setting `selected = true` on the first option of the toolbar that carries
the id, in document order; `none` when no option of the toolbar carries it. -/
def selectById {σ : Type} (id : String) : List (Control σ) → Option (List (Control σ))
  | [] => none
  | Control.button b :: rest => (selectById id rest).map (fun r => Control.button b :: r)
  | Control.selectbox s :: rest =>
    if s.element.any (fun o => o.id == id) then
      some (Control.selectbox { s with element := selectOption id s.element } :: rest)
    else
      (selectById id rest).map (fun r => Control.selectbox s :: r)

/-- The method `updateSelectboxState(element, name, state)`, that is
`$(state).selected = true`. The lookup `$(state)` is `undefined` for an
undefined state and otherwise the first element of the document with that id,
`null` when there is none; setting a property on either is a TypeError. An
element outside the toolbar that carries the id takes the property and the
toolbar is left as it is. -/
def updateSelectboxState {σ : Type} (host : Host) (element : List (Control σ))
    (state : Option String) : Except JSError (List (Control σ)) :=
  match state with
  | none => .error JSError.typeError
  | some id =>
    if id ∈ host.idsBefore then
      .ok element
    else
      match selectById id element with
      | some element => .ok element
      | none => if id ∈ host.idsAfter then .ok element else .error JSError.typeError

/-- The callback subscribed by `observeStateChangesSelectbox(element, name,
handler)` for the selectbox at position `i`, run on one "wysihat:cursormove"
notification. An error it raises goes to the event dispatch. -/
def observeStateChangesSelectbox {σ : Type} (toolbar : Toolbar σ) (i : Nat)
    (s : Selectbox σ) : Toolbar σ :=
  let state := s.query toolbar.editor
  if looseNe toolbar.host state s.previousState then
    let element :=
      toolbar.element.set i (Control.selectbox { s with previousState := Cached.value state })
    match updateSelectboxState toolbar.host element state with
    | .ok element => { toolbar with element := element }
    | .error e => { toolbar with element := element, uncaught := toolbar.uncaught ++ [e] }
  else
    toolbar

/-- The observer of the control at position `i`, run on one notification. -/
def notifyObserver {σ : Type} (toolbar : Toolbar σ) (i : Nat) : Toolbar σ :=
  match toolbar.element[i]? with
  | none => toolbar
  | some (Control.button b) =>
    { toolbar with
      element := toolbar.element.set i (Control.button (observeStateChanges toolbar.editor b)) }
  | some (Control.selectbox s) => observeStateChangesSelectbox toolbar i s

/-- Delivery of one "wysihat:cursormove" notification: every subscribed
observer runs, in the order of subscription. -/
def notifyObservers {σ : Type} (toolbar : Toolbar σ) : Toolbar σ :=
  (List.range toolbar.element.length).foldl notifyObserver toolbar

/-- The call `toolbar.editor.fire(eventName)`: the notification is recorded on
the editor and, for "wysihat:cursormove", delivered to the observers. -/
def fire {σ : Type} (toolbar : Toolbar σ) (eventName : String) : Toolbar σ :=
  let toolbar :=
    { toolbar with
      editor := { toolbar.editor with log := toolbar.editor.log ++ [Call.fire eventName] } }
  if eventName = "wysihat:cursormove" then notifyObservers toolbar else toolbar

/-! ## Listeners -/

/-- The listener bound by `observeButtonClick(element, handler)`, run on one
click. -/
def observeButtonClick {σ : Type} (toolbar : Toolbar σ) (handler : Handler σ) : Toolbar σ :=
  let toolbar := { toolbar with editor := handler toolbar.editor }
  let toolbar := fire toolbar "wysihat:change"
  let toolbar := fire toolbar "wysihat:cursormove"
  { toolbar with stopped := toolbar.stopped + 1 }

/-- The listener bound by `observeOptionSelect(element, handler)`, run on one
change event while `element.value` is `value`. Calling `undefined` is a
TypeError; an error raised by the call ends the listener. An inherited member
that returns has issued nothing on the editor, and the listener goes on. -/
def observeOptionSelect {σ : Type} (toolbar : Toolbar σ) (handler : List (String × Handler σ))
    (value : String) : Toolbar σ :=
  match getProperty toolbar.host handler value with
  | Member.undefined => { toolbar with uncaught := toolbar.uncaught ++ [JSError.typeError] }
  | Member.inherited (.error e) => { toolbar with uncaught := toolbar.uncaught ++ [e] }
  | Member.inherited (.ok _) =>
    let toolbar := fire toolbar "wysihat:change"
    let toolbar := fire toolbar "wysihat:cursormove"
    { toolbar with stopped := toolbar.stopped + 1 }
  | Member.own h =>
    let toolbar := { toolbar with editor := h toolbar.editor }
    let toolbar := fire toolbar "wysihat:change"
    let toolbar := fire toolbar "wysihat:cursormove"
    { toolbar with stopped := toolbar.stopped + 1 }

/-! ## What happens to a toolbar -/

/-- A click on the child at position `i` of the container. -/
def click {σ : Type} (toolbar : Toolbar σ) (i : Nat) : Toolbar σ :=
  match toolbar.element[i]? with
  | some (Control.button b) => observeButtonClick toolbar b.handler
  | _ => toolbar

/-- A change event on the child at position `i` while its value is `value`. -/
def change {σ : Type} (toolbar : Toolbar σ) (i : Nat) (value : String) : Toolbar σ :=
  match toolbar.element[i]? with
  | some (Control.selectbox s) => observeOptionSelect toolbar s.handler value
  | _ => toolbar

/-- A "wysihat:cursormove" notification raised by the editor itself, after its
state became `state`. -/
def cursormove {σ : Type} (toolbar : Toolbar σ) (state : σ) : Toolbar σ :=
  notifyObservers { toolbar with editor := { toolbar.editor with state := state } }

/-- One thing that happens to a toolbar: a registration call, a user action on
a control, or a notification of the editor. -/
inductive Step (σ : Type) where
  | addButton (options : ButtonOptions σ) (handler : Option (Handler σ))
  | addSelectbox (options : SelectboxOptions σ) (handler : Option (List (String × Handler σ)))
  | addButtonSet (set : List (ButtonOptions σ))
  | click (i : Nat)
  | change (i : Nat) (value : String)
  | cursormove (state : σ)

/-- The toolbar after one step; `addButton` and `addSelectbox` leave the
toolbar as it was when they raise. -/
def step {σ : Type} (toolbar : Toolbar σ) : Step σ → Toolbar σ
  | Step.addButton options handler =>
    match addButton toolbar options handler with
    | .ok t => t
    | .error _ => toolbar
  | Step.addSelectbox options handler =>
    match addSelectbox toolbar options handler with
    | .ok t => t
    | .error _ => toolbar
  | Step.addButtonSet set => (addButtonSet toolbar set).1
  | Step.click i => click toolbar i
  | Step.change i value => change toolbar i value
  | Step.cursormove state => cursormove toolbar state

/-- The toolbar after a sequence of steps. -/
def run {σ : Type} (toolbar : Toolbar σ) (steps : List (Step σ)) : Toolbar σ :=
  steps.foldl step toolbar

/-! ## A page to evaluate on -/

/-- An editor whose state is one flag: every command toggles it, every command
state query reads it, and no style is ever selected. -/
def flagEditor : Editor Bool :=
  { api :=
      { execCommand := fun _ flag => !flag
        queryCommandState := fun _ flag => flag
        getSelectedStyles := fun _ => [] }
    state := false
    log := [] }

/-- Splitting at the HTML space characters, with the characters of the name
being read kept in reverse. -/
def splitAtSpaces : List Char → List Char → List String
  | [], [] => []
  | [], c :: current => [String.mk (c :: current).reverse]
  | c :: rest, current =>
    if c == ' ' || c == '\t' || c == '\n' || c == '\r' || c.val == 12 then
      match current with
      | [] => splitAtSpaces rest []
      | d :: ds => String.mk (d :: ds).reverse :: splitAtSpaces rest []
    else
      splitAtSpaces rest (c :: current)

/-- The class names of a class attribute as HTML defines them: its parts
between space characters. -/
def htmlClassTokens (value : String) : List String :=
  splitAtSpaces value.data []

/-- A page with no ids outside the toolbar, to evaluate on. Its runtime
lower-cases A to Z, converts the empty string and "0" to zero, and gives a
plain object the members of `Object.prototype` that return. Its toolkit finds a
name on an element when the name is one of the element's class names, which
HTML's space characters separate. The theorems consult the number test at "c"
only, and the toolkit's test at names without regular-expression characters. -/
def plainHost : Host :=
  { idsBefore := []
    idsAfter := []
    toNumberIsZero := fun s => s == "" || s == "0"
    toLowerCase := asciiLowerCase
    hasClassName := fun value name => decide (name ∈ htmlClassTokens value)
    classTokens := htmlClassTokens
    inheritedMember := fun key =>
      if key ∈ ["constructor", "toString", "toLocaleString", "valueOf", "hasOwnProperty",
          "isPrototypeOf", "propertyIsEnumerable"] then
        some (.ok ())
      else none
    toLowerCase_ascii := fun _ _ => rfl
    hasClassName_button := fun name _ => by
      have h : htmlClassTokens "button" = ["button"] := by decide
      simp [h]
    classTokens_plain := fun name h => by
      have key : ∀ (cs current : List Char), cs.all isPlainChar = true →
          (cs ≠ [] ∨ current ≠ []) →
          splitAtSpaces cs current = [String.mk (current.reverse ++ cs)] := by
        intro cs
        induction cs with
        | nil =>
          intro current _ hne
          cases current with
          | nil => simp at hne
          | cons c current => simp [splitAtSpaces]
        | cons c cs ih =>
          intro current hall _
          simp only [List.all_cons, Bool.and_eq_true] at hall
          have hc : (c == ' ' || c == '\t' || c == '\n' || c == '\r' || c.val == 12)
              = false := by
            have hp := hall.1
            by_contra hne'
            simp only [Bool.not_eq_false, Bool.or_eq_true, beq_iff_eq] at hne'
            rcases hne' with (((rfl | rfl) | rfl) | rfl) | h12
            · exact absurd hp (by decide)
            · exact absurd hp (by decide)
            · exact absurd hp (by decide)
            · exact absurd hp (by decide)
            · have hc12 : c = Char.ofNat 12 := Char.ext h12
              subst hc12
              exact absurd hp (by decide)
          rw [splitAtSpaces.eq_def]
          simp only [hc, Bool.false_eq_true, if_false]
          rw [ih (c :: current) hall.2 (Or.inr (by simp))]
          simp
      simp only [isPlainName, Bool.and_eq_true, Bool.not_eq_true',
        List.isEmpty_eq_false] at h
      have hne : name.data ≠ [] := by
        intro e
        simp [e] at h
      simpa [htmlClassTokens] using key name.data [] h.2 (Or.inl hne) }

/-- A fresh toolbar on `flagEditor`. -/
def freshToolbar : Toolbar Bool := createToolbar plainHost flagEditor

/-- A caller-supplied handler as in the example of `addButton`:
`function(editor) { editor.boldSelection(); }`. -/
def boldSelection : Handler Bool :=
  fun editor => { editor with log := editor.log ++ [Call.other "boldSelection"] }

/-- The button element of a child, when the child is a button. -/
def Control.anchor? {σ : Type} : Control σ → Option Anchor
  | Control.button b => some b.element
  | Control.selectbox _ => none

/-- The option children of a child, when the child is a selectbox. -/
def Control.options? {σ : Type} : Control σ → Option (List OptionElement)
  | Control.button _ => none
  | Control.selectbox s => some s.element

/-- The name a child was registered under. -/
def Control.name {σ : Type} : Control σ → String
  | Control.button b => b.name
  | Control.selectbox s => s.name

/-- What a later event may change of a registered child: a button stays as it
is; of a selectbox, only the options' `selected` properties and the observer's
`previousState`. -/
def Control.Kept {σ : Type} : Control σ → Control σ → Prop
  | Control.button b, c => c = Control.button b
  | Control.selectbox s, c =>
    ∃ element previousState,
      c = Control.selectbox { s with element := element, previousState := previousState }

/-- Two children carry the same registration: the same kind of control under
the same name with the same handler and the same query handler. -/
def Control.SameRegistration {σ : Type} : Control σ → Control σ → Prop
  | Control.button b, Control.button b' =>
    b'.name = b.name ∧ b'.handler = b.handler ∧ b'.query = b.query
  | Control.selectbox s, Control.selectbox s' =>
    s'.name = s.name ∧ s'.handler = s.handler ∧ s'.query = s.query
  | _, _ => False

/-- Every child of the first container is still at its position in the second,
with the same registration. -/
def Persists {σ : Type} (element element' : List (Control σ)) : Prop :=
  ∀ (i : Nat) (c : Control σ), element[i]? = some c →
    ∃ c', element'[i]? = some c' ∧ Control.SameRegistration c c'

/-- Whether a step delivers a "wysihat:cursormove" notification to the
observers: a notification of the editor does, a click on a button does, and a
change event on a selectbox does when the call of the handler object's member
for the control's value returns. -/
def delivers {σ : Type} (toolbar : Toolbar σ) : Step σ → Bool
  | Step.cursormove _ => true
  | Step.click i =>
    match toolbar.element[i]? with
    | some (Control.button _) => true
    | _ => false
  | Step.change i value =>
    match toolbar.element[i]? with
    | some (Control.selectbox s) =>
      match getProperty toolbar.host s.handler value with
      | Member.own _ => true
      | Member.inherited (.ok _) => true
      | _ => false
    | _ => false
  | _ => false

/-- The editor as it stands at each notification delivered during a run, in
the order of delivery. -/
def deliveries {σ : Type} (toolbar : Toolbar σ) : List (Step σ) → List (Editor σ)
  | [] => []
  | s :: steps =>
    (if delivers toolbar s then [(step toolbar s).editor] else []) ++
      deliveries (step toolbar s) steps

/-- The visual updates the specification asks for, in its own words: given the
cached previous state and the query results of successive notifications, an
update is due at each result that differs from the one cached before it, and
each result is cached in turn. -/
def dueUpdates (cached : Bool) : List Bool → List Bool
  | [] => []
  | r :: rs => if r != cached then r :: dueUpdates r rs else dueUpdates r rs

/-- A button whose element and observer agree: the class list holds 'selected'
at most once, and it holds it exactly when the cached state is true. -/
def Button.InStep {σ : Type} (b : Button σ) : Prop :=
  b.element.className.count "selected" ≤ 1 ∧
    ("selected" ∈ b.element.className ↔ b.previousState = true)

/-! ## Registration: name defaulting and failure -/

theorem defaultName_of_label (host : Host) (name : Option String) (l : String) :
    defaultName host name (some l) =
      .ok (match name with
        | none => host.toLowerCase l
        | some n => if n = "" then host.toLowerCase l else n) := by
  cases name with
  | none => rfl
  | some n =>
    by_cases hn : n = ""
    · subst hn; rfl
    · simp [defaultName, truthy, hn]

theorem defaultName_of_truthy (host : Host) (n : String) (label : Option String)
    (hn : n ≠ "") : defaultName host (some n) label = .ok n := by
  simp [defaultName, truthy, hn]

/-- The class list of a new button whose name is a plain name. -/
theorem createButtonElement_plain (host : Host) (name : String) (label : Option String)
    (hp : isPlainName name = true) :
    (createButtonElement host name label).className =
      if name = "button" then ["button"] else ["button", name] := by
  simp only [createButtonElement, host.hasClassName_button name hp,
    host.classTokens_plain name hp, decide_eq_true_eq]

/-- C8: when both `name` and `label` are absent, `addButton` and `addSelectbox`
raise an error (the TypeError of calling `toLowerCase` on the absent label) and
the toolbar is as before: no child appended, no listener bound, no observer
subscribed. -/
theorem missing_identifier_fails_unchanged {σ : Type} (toolbar : Toolbar σ)
    (b : ButtonOptions σ) (s : SelectboxOptions σ)
    (hb : Option (Handler σ)) (hs : Option (List (String × Handler σ)))
    (hbn : b.name = none) (hbl : b.label = none)
    (hsn : s.name = none) (hsl : s.label = none) :
    addButton toolbar b hb = .error JSError.typeError ∧
    addSelectbox toolbar s hs = .error JSError.typeError ∧
    step toolbar (Step.addButton b hb) = toolbar ∧
    step toolbar (Step.addSelectbox s hs) = toolbar := by
  have e1 : addButton toolbar b hb = .error JSError.typeError := by
    simp [addButton, hbn, hbl, defaultName, lowerCasedLabel]
  have e2 : addSelectbox toolbar s hs = .error JSError.typeError := by
    simp [addSelectbox, hsn, hsl, defaultName, lowerCasedLabel]
  refine ⟨e1, e2, ?_, ?_⟩
  · simp [step, e1]
  · simp [step, e2]

theorem missing_identifier_fails_unchanged_witness :
    addButton freshToolbar
        { name := none, label := none, handler := none, query := none } none
      = .error JSError.typeError ∧
    addSelectbox freshToolbar
        { name := none, label := none, handler := none, query := none,
          options := some ["a", "b"] } none
      = .error JSError.typeError ∧
    step freshToolbar
        (Step.addButton { name := none, label := none, handler := none, query := none } none)
      = freshToolbar ∧
    step freshToolbar
        (Step.addSelectbox
          { name := none, label := none, handler := none, query := none,
            options := some ["a", "b"] } none)
      = freshToolbar :=
  missing_identifier_fails_unchanged freshToolbar _ _ none none rfl rfl rfl rfl

/-! ## Registration: what is appended -/

/-- C9 as stated fails: with a name and an empty options sequence,
`addSelectbox` raises no error and the container has one child afterwards. -/
theorem empty_options_is_accepted :
    (∀ e, addSelectbox freshToolbar
        { name := some "style", label := none, handler := none, query := none,
          options := some [] } none ≠ .error e) ∧
    ((step freshToolbar
        (Step.addSelectbox
          { name := some "style", label := none, handler := none, query := none,
            options := some [] } none)).element.map Control.options?) = [some []] := by
  constructor
  · intro e h
    simp [addSelectbox, defaultName, truthy, selectboxHandler, directProperty] at h
  · rfl

/-- C9, amended: with an empty options sequence and a non-empty name or a
label, `addSelectbox` raises no error and appends to the container one `select`
without option children, registered under the defaulted name with the initial
`previousState`; the earlier children stay. -/
theorem addSelectbox_empty_options {σ : Type} (toolbar : Toolbar σ)
    (s : SelectboxOptions σ) (hs : Option (List (String × Handler σ)))
    (hopts : s.options = some [])
    (hid : truthy s.name = true ∨ s.label ≠ none) :
    ∃ name handler query,
      defaultName toolbar.host s.name s.label = .ok name ∧
      addSelectbox toolbar s hs =
        .ok { toolbar with
              element := toolbar.element ++ [Control.selectbox
                { element := [], name := name, handler := handler, query := query,
                  previousState := Cached.initial }] } := by
  have hname : ∃ name, defaultName toolbar.host s.name s.label = .ok name := by
    rcases hid with h | h
    · cases hn : s.name with
      | none => simp [hn, truthy] at h
      | some n =>
        refine ⟨n, ?_⟩
        rw [hn] at h
        simp [defaultName, h]
    · cases hl : s.label with
      | none => exact absurd hl h
      | some l => exact ⟨_, defaultName_of_label toolbar.host s.name l⟩
  obtain ⟨name, hname⟩ := hname
  cases hh : s.handler with
  | none =>
    refine ⟨name, [], selectboxStateHandler name { s with name := some name }, hname, ?_⟩
    simp [addSelectbox, hname, hopts, selectboxHandler, directProperty, hh,
      createSelectboxElement]
  | some table =>
    refine ⟨name, table, selectboxStateHandler name { s with name := some name }, hname, ?_⟩
    simp [addSelectbox, hname, hopts, selectboxHandler, directProperty, hh,
      createSelectboxElement]

theorem addSelectbox_empty_options_witness :
    ∃ name handler query,
      defaultName freshToolbar.host (some "style") none = .ok name ∧
      addSelectbox freshToolbar
          { name := some "style", label := none, handler := none, query := none,
            options := some [] } none =
        .ok { freshToolbar with
              element := freshToolbar.element ++ [Control.selectbox
                { element := [], name := name, handler := handler, query := query,
                  previousState := Cached.initial }] } :=
  addSelectbox_empty_options freshToolbar
    { name := some "style", label := none, handler := none, query := none,
      options := some [] } none rfl (Or.inl rfl)

/-- The child `addButton` appends for a definition with a label. -/
theorem addButton_of_label {σ : Type} (toolbar : Toolbar σ) (o : ButtonOptions σ)
    (h : Option (Handler σ)) (name : String)
    (hname : defaultName toolbar.host o.name o.label = .ok name) :
    addButton toolbar o h =
      .ok { toolbar with
            element := toolbar.element ++ [Control.button
              { element := createButtonElement toolbar.host name o.label
                name := name
                handler := buttonHandler name { o with name := some name }
                query := buttonStateHandler name { o with name := some name }
                previousState := false
                updates := [] }] } := by
  simp [addButton, hname]

/-- C5 as stated fails: the label "Insert Link" gives the name "insert link",
and the element's class list is then the three names 'button', 'insert' and
'link'; it is not ['button', name], and the name is not one of its classes. -/
theorem spaced_name_is_split :
    ((step freshToolbar
        (Step.addButton
          { name := none, label := some "Insert Link", handler := none, query := none }
          none)).element.map Control.anchor?)
      = [some { href := "#", className := ["button", "insert", "link"],
                content := "<span>Insert Link</span>" }] ∧
    ((step freshToolbar
        (Step.addButton
          { name := none, label := some "Insert Link", handler := none, query := none }
          none)).element.map Control.name)
      = ["insert link"] ∧
    ((step freshToolbar
        (Step.addButton
          { name := none, label := some "Insert Link", handler := none, query := none }
          none)).element.map Control.anchor?)
      ≠ [some { href := "#", className := ["button", "insert link"],
                content := "<span>Insert Link</span>" }] ∧
    (∀ a : Anchor,
      some a ∈ ((step freshToolbar
        (Step.addButton
          { name := none, label := some "Insert Link", handler := none, query := none }
          none)).element.map Control.anchor?) →
      "insert link" ∉ a.className) := by
  have h : ((step freshToolbar
        (Step.addButton
          { name := none, label := some "Insert Link", handler := none, query := none }
          none)).element.map Control.anchor?)
      = [some { href := "#", className := ["button", "insert", "link"],
                content := "<span>Insert Link</span>" }] := by decide
  refine ⟨h, by decide, ?_, ?_⟩
  · rw [h]
    decide
  · intro a ha
    rw [h] at ha
    simp only [List.mem_singleton, Option.some.injEq] at ha
    subst ha
    decide

/-- C5, amended: for a definition with label `L`, `addButton` appends one
button registered under the name `L` lower-cased by the runtime when the name
is absent or empty and under the given name otherwise. Its element is a link
with href '#' and content '<span>L</span>'. Its class list is ['button'] when
the toolkit already finds the name on the 'button' element, and otherwise
'button' followed by the class names of the name; for a plain name that is
['button', name], with 'button' there once when the name is 'button'. On an
ASCII label the runtime lower-cases the letters A to Z. -/
theorem addButton_name_and_element {σ : Type} (toolbar : Toolbar σ) (o : ButtonOptions σ)
    (h : Option (Handler σ)) (L : String) (hl : o.label = some L) :
    ∃ b : Button σ,
      addButton toolbar o h =
        .ok { toolbar with element := toolbar.element ++ [Control.button b] } ∧
      b.name = (match o.name with
        | none => toolbar.host.toLowerCase L
        | some n => if n = "" then toolbar.host.toLowerCase L else n) ∧
      b.element =
        { href := "#"
          className :=
            if toolbar.host.hasClassName "button" b.name then ["button"]
            else "button" :: toolbar.host.classTokens b.name
          content := "<span>" ++ L ++ "</span>" } ∧
      (isPlainName b.name = true →
        b.element.className = if b.name = "button" then ["button"] else ["button", b.name]) ∧
      (isAscii L = true → toolbar.host.toLowerCase L = asciiLowerCase L) := by
  have hname := defaultName_of_label toolbar.host o.name L
  rw [← hl] at hname
  refine ⟨_, addButton_of_label toolbar o h _ hname, rfl, ?_, ?_, ?_⟩
  · simp only [createButtonElement, hl, concatValue]
  · intro hp
    exact createButtonElement_plain toolbar.host _ o.label hp
  · exact toolbar.host.toLowerCase_ascii L

theorem addButton_name_and_element_witness :
    ∃ b : Button Bool,
      addButton freshToolbar
          { name := none, label := some "Bold", handler := none, query := none } none =
        .ok { freshToolbar with element := freshToolbar.element ++ [Control.button b] } ∧
      b.name = "bold" ∧
      b.element =
        { href := "#", className := ["button", "bold"], content := "<span>Bold</span>" } :=
  match addButton_name_and_element freshToolbar
    { name := none, label := some "Bold", handler := none, query := none } none "Bold" rfl with
  | ⟨b, hb, hn, he, _, _⟩ =>
    have hn' : b.name = "bold" := hn
    ⟨b, hb, hn', by rw [he, hn']; decide⟩

/-- For a definition with a label, `addButton` appends one child that depends
on the definition and the host alone. -/
theorem addButton_builds {σ : Type} (host : Host) (d : ButtonOptions σ)
    (hd : d.label ≠ none) :
    ∃ c : Control σ, ∀ (t : Toolbar σ) (h : Option (Handler σ)), t.host = host →
      addButton t d h = .ok { t with element := t.element ++ [c] } := by
  obtain ⟨l, hdl⟩ := Option.ne_none_iff_exists'.mp hd
  have hname := defaultName_of_label host d.name l
  rw [← hdl] at hname
  obtain ⟨n, hn⟩ : ∃ n, defaultName host d.name d.label = .ok n := ⟨_, hname⟩
  refine ⟨Control.button
    { element := createButtonElement host n d.label
      name := n
      handler := buttonHandler n { d with name := some n }
      query := buttonStateHandler n { d with name := some n }
      previousState := false
      updates := [] }, fun t h ht => ?_⟩
  subst ht
  exact addButton_of_label t d h n hn

theorem addButtonSet_children {σ : Type} (host : Host) (set : List (ButtonOptions σ))
    (hl : ∀ d ∈ set, d.label ≠ none) (toolbar : Toolbar σ) (hhost : toolbar.host = host) :
    ∃ children : List (Control σ),
      List.Forall₂
        (fun d c => ∀ (t : Toolbar σ) (h : Option (Handler σ)), t.host = host →
          addButton t d h = .ok { t with element := t.element ++ [c] })
        set children ∧
      addButtonSet toolbar set =
        ({ toolbar with element := toolbar.element ++ children }, none) := by
  induction set generalizing toolbar with
  | nil => exact ⟨[], List.Forall₂.nil, by simp [addButtonSet]⟩
  | cons d set ih =>
    obtain ⟨c, hc⟩ := addButton_builds host d (hl d (List.mem_cons_self _ _))
    obtain ⟨cs, hcs, hrun⟩ :=
      ih (fun d' hd' => hl d' (List.mem_cons_of_mem _ hd'))
        { toolbar with element := toolbar.element ++ [c] } hhost
    refine ⟨c :: cs, List.Forall₂.cons hc hcs, ?_⟩
    simp only [addButtonSet, hc toolbar none hhost, hrun, List.append_assoc,
      List.singleton_append]

/-- What `addButton` appends for a definition that holds nothing but a label of
ASCII letters whose lower-casing is a plain name other than 'button'. -/
theorem addButton_plain_label {σ : Type} (toolbar : Toolbar σ) (L : String)
    (h : Option (Handler σ)) (hascii : isAscii L = true)
    (hplain : isPlainName (asciiLowerCase L) = true) (hb : asciiLowerCase L ≠ "button") :
    ∃ b : Button σ,
      addButton toolbar { name := none, label := some L, handler := none, query := none } h =
        .ok { toolbar with element := toolbar.element ++ [Control.button b] } ∧
      b.name = asciiLowerCase L ∧
      b.element =
        { href := "#", className := ["button", asciiLowerCase L],
          content := "<span>" ++ L ++ "</span>" } := by
  have hname : defaultName toolbar.host none (some L) = .ok (asciiLowerCase L) := by
    simp only [defaultName, lowerCasedLabel, toolbar.host.toLowerCase_ascii L hascii]
  refine ⟨_, addButton_of_label toolbar _ h _ hname, rfl, ?_⟩
  have hc := createButtonElement_plain toolbar.host (asciiLowerCase L) (some L) hplain
  simp only [hb, if_false] at hc
  simp only [createButtonElement, concatValue] at hc ⊢
  rw [hc]

/-- C6: for a set of definitions that each carry a label, `addButtonSet` raises
no error and leaves the toolbar that the calls `addButton(d1)`, ...,
`addButton(dn)` leave in that order: the children afterwards are the earlier
children followed by exactly one new child per definition, the i-th being the
button that `addButton` builds on this page from the i-th definition. For
`ButtonSets.Basic` on a fresh toolbar these are the buttons named bold,
underline and italic, in that order. -/
theorem addButtonSet_appends_in_order {σ : Type} (toolbar : Toolbar σ)
    (set : List (ButtonOptions σ)) (hl : ∀ d ∈ set, d.label ≠ none) :
    (∃ children : List (Control σ),
      List.Forall₂
        (fun d c => ∀ (t : Toolbar σ) (h : Option (Handler σ)), t.host = toolbar.host →
          addButton t d h = .ok { t with element := t.element ++ [c] })
        set children ∧
      addButtonSet toolbar set =
        ({ toolbar with element := toolbar.element ++ children }, none)) ∧
    addButtonSet toolbar set =
      (run toolbar (set.map (fun d => Step.addButton d none)), none) ∧
    (∀ (host : Host) (editor : Editor σ),
      (addButtonSet (createToolbar host editor) ButtonSets.Basic).1.element.map Control.name
        = ["bold", "underline", "italic"] ∧
      (addButtonSet (createToolbar host editor) ButtonSets.Basic).1.element.map Control.anchor?
        = [ some { href := "#", className := ["button", "bold"],
                   content := "<span>Bold</span>" },
            some { href := "#", className := ["button", "underline"],
                   content := "<span>Underline</span>" },
            some { href := "#", className := ["button", "italic"],
                   content := "<span>Italic</span>" } ]) := by
  refine ⟨addButtonSet_children toolbar.host set hl toolbar rfl, ?_, ?_⟩
  · induction set generalizing toolbar with
    | nil => rfl
    | cons d set ih =>
      obtain ⟨c, hc⟩ := addButton_builds toolbar.host d (hl d (List.mem_cons_self _ _))
      simp only [addButtonSet, hc toolbar none rfl, List.map_cons, run, List.foldl_cons, step]
      exact ih _ (fun d' hd' => hl d' (List.mem_cons_of_mem _ hd'))
  · intro host editor
    obtain ⟨b1, h1, n1, e1⟩ := addButton_plain_label (createToolbar host editor) "Bold" none
      (by decide) (by decide) (by decide)
    obtain ⟨b2, h2, n2, e2⟩ := addButton_plain_label
      { createToolbar host editor with
        element := (createToolbar host editor).element ++ [Control.button b1] }
      "Underline" none (by decide) (by decide) (by decide)
    obtain ⟨b3, h3, n3, e3⟩ := addButton_plain_label
      { createToolbar host editor with
        element := (createToolbar host editor).element ++ [Control.button b1] ++
          [Control.button b2] }
      "Italic" none (by decide) (by decide) (by decide)
    have hset : addButtonSet (createToolbar host editor) ButtonSets.Basic =
        ({ createToolbar host editor with
           element := (createToolbar host editor).element ++ [Control.button b1] ++
             [Control.button b2] ++ [Control.button b3] }, none) := by
      simp only [ButtonSets.Basic, addButtonSet, h1, h2, h3]
    have d1 : asciiLowerCase "Bold" = "bold" := by decide
    have d2 : asciiLowerCase "Underline" = "underline" := by decide
    have d3 : asciiLowerCase "Italic" = "italic" := by decide
    rw [hset]
    constructor
    · simp [createToolbar, Control.name, n1, n2, n3, d1, d2, d3]
    · simp [createToolbar, Control.anchor?, e1, e2, e3, d1, d2, d3]

theorem addButtonSet_appends_in_order_witness :
    (∃ children : List (Control Bool),
      List.Forall₂
        (fun d c => ∀ (t : Toolbar Bool) (h : Option (Handler Bool)),
          t.host = freshToolbar.host →
          addButton t d h = .ok { t with element := t.element ++ [c] })
        ButtonSets.Basic children ∧
      addButtonSet freshToolbar ButtonSets.Basic =
        ({ freshToolbar with element := freshToolbar.element ++ children }, none)) ∧
    addButtonSet freshToolbar ButtonSets.Basic =
      (run freshToolbar (ButtonSets.Basic.map (fun d => Step.addButton d none)), none) :=
  have h := addButtonSet_appends_in_order freshToolbar ButtonSets.Basic
    (by intro d hd; simp [ButtonSets.Basic] at hd; rcases hd with rfl | rfl | rfl <;> simp)
  ⟨h.1, h.2.1⟩

/-! ## Frame lemmas: what observers leave alone -/

theorem kept_refl {σ : Type} (c : Control σ) : Control.Kept c c := by
  cases c with
  | button b => rfl
  | selectbox s => exact ⟨s.element, s.previousState, rfl⟩

theorem kept_sameRegistration {σ : Type} {c c' : Control σ}
    (h : Control.Kept c c') : Control.SameRegistration c c' := by
  cases c with
  | button b =>
    have h' : c' = Control.button b := h
    subst h'
    exact ⟨rfl, rfl, rfl⟩
  | selectbox s =>
    obtain ⟨e, p, h'⟩ := h
    subst h'
    exact ⟨rfl, rfl, rfl⟩

theorem sameRegistration_refl {σ : Type} (c : Control σ) :
    Control.SameRegistration c c :=
  kept_sameRegistration (kept_refl c)

theorem sameRegistration_trans {σ : Type} {a b c : Control σ}
    (h₁ : Control.SameRegistration a b) (h₂ : Control.SameRegistration b c) :
    Control.SameRegistration a c := by
  cases a <;> cases b <;> cases c <;>
    simp only [Control.SameRegistration] at h₁ h₂ ⊢
  · exact ⟨h₂.1.trans h₁.1, h₂.2.1.trans h₁.2.1, h₂.2.2.trans h₁.2.2⟩
  · exact ⟨h₂.1.trans h₁.1, h₂.2.1.trans h₁.2.1, h₂.2.2.trans h₁.2.2⟩

theorem persists_refl {σ : Type} (element : List (Control σ)) : Persists element element :=
  fun _ c h => ⟨c, h, sameRegistration_refl c⟩

theorem persists_trans {σ : Type} {a b c : List (Control σ)}
    (h₁ : Persists a b) (h₂ : Persists b c) : Persists a c := by
  intro i x hx
  obtain ⟨y, hy, hxy⟩ := h₁ i x hx
  obtain ⟨z, hz, hyz⟩ := h₂ i y hy
  exact ⟨z, hz, sameRegistration_trans hxy hyz⟩

theorem persists_append {σ : Type} (a b : List (Control σ)) : Persists a (a ++ b) := by
  intro i c h
  refine ⟨c, ?_, sameRegistration_refl c⟩
  have hi : i < a.length := by
    by_contra hn
    rw [List.getElem?_eq_none (Nat.le_of_not_lt hn)] at h
    cases h
  rw [List.getElem?_append_left hi]
  exact h

theorem forall₂_kept_refl {σ : Type} (element : List (Control σ)) :
    List.Forall₂ Control.Kept element element := by
  induction element with
  | nil => exact List.Forall₂.nil
  | cons c cs ih => exact List.Forall₂.cons (kept_refl c) ih

theorem forall₂_getElem? {α : Type} {R : α → α → Prop} {xs ys : List α}
    (h : List.Forall₂ R xs ys) (i : Nat) (x : α) (hx : xs[i]? = some x) :
    ∃ y, ys[i]? = some y ∧ R x y := by
  induction h generalizing i with
  | nil => simp at hx
  | cons hr _ ih =>
    cases i with
    | zero =>
      simp only [List.getElem?_cons_zero, Option.some.injEq] at hx
      subst hx
      exact ⟨_, by simp, hr⟩
    | succ i =>
      simp only [List.getElem?_cons_succ] at hx ⊢
      exact ih i hx

theorem selectById_kept {σ : Type} (id : String) (element element' : List (Control σ))
    (h : selectById id element = some element') :
    List.Forall₂ Control.Kept element element' := by
  induction element generalizing element' with
  | nil => simp [selectById] at h
  | cons c cs ih =>
    cases c with
    | button b =>
      simp only [selectById, Option.map_eq_some'] at h
      obtain ⟨r, hr, rfl⟩ := h
      exact List.Forall₂.cons rfl (ih r hr)
    | selectbox s =>
      simp only [selectById] at h
      split at h
      · simp only [Option.some.injEq] at h
        subst h
        exact List.Forall₂.cons ⟨_, s.previousState, rfl⟩ (forall₂_kept_refl cs)
      · simp only [Option.map_eq_some'] at h
        obtain ⟨r, hr, rfl⟩ := h
        exact List.Forall₂.cons (kept_refl _) (ih r hr)

theorem updateSelectboxState_kept {σ : Type} (host : Host) (element element' : List (Control σ))
    (state : Option String) (h : updateSelectboxState host element state = .ok element') :
    List.Forall₂ Control.Kept element element' := by
  cases state with
  | none => simp [updateSelectboxState] at h
  | some id =>
    simp only [updateSelectboxState] at h
    split at h
    · cases h
      exact forall₂_kept_refl element
    · split at h
      · rename_i e he
        cases h
        exact selectById_kept id element _ he
      · split at h
        · cases h
          exact forall₂_kept_refl element
        · cases h

theorem kept_trans {σ : Type} {a b c : Control σ}
    (h₁ : Control.Kept a b) (h₂ : Control.Kept b c) : Control.Kept a c := by
  cases a with
  | button x =>
    have hb : b = Control.button x := h₁
    subst hb
    exact h₂
  | selectbox x =>
    obtain ⟨e, p, hb⟩ := h₁
    subst hb
    obtain ⟨e', p', hc⟩ := h₂
    subst hc
    exact ⟨e', p', rfl⟩

theorem forall₂_kept_trans {σ : Type} {a b c : List (Control σ)}
    (h₁ : List.Forall₂ Control.Kept a b) (h₂ : List.Forall₂ Control.Kept b c) :
    List.Forall₂ Control.Kept a c := by
  induction h₁ generalizing c with
  | nil => cases h₂; exact List.Forall₂.nil
  | cons hr _ ih =>
    cases h₂ with
    | cons hr' hrest => exact List.Forall₂.cons (kept_trans hr hr') (ih hrest)

theorem forall₂_kept_set {σ : Type} (element : List (Control σ)) (j : Nat) (c c' : Control σ)
    (hj : element[j]? = some c) (hk : Control.Kept c c') :
    List.Forall₂ Control.Kept element (element.set j c') := by
  induction element generalizing j with
  | nil => simp at hj
  | cons x xs ih =>
    cases j with
    | zero =>
      simp only [List.getElem?_cons_zero, Option.some.injEq] at hj
      subst hj
      exact List.Forall₂.cons hk (forall₂_kept_refl xs)
    | succ j =>
      simp only [List.getElem?_cons_succ] at hj
      exact List.Forall₂.cons (kept_refl x) (ih j hj)

theorem forall₂_kept_persists {σ : Type} {a b : List (Control σ)}
    (h : List.Forall₂ Control.Kept a b) : Persists a b := by
  intro i c hc
  obtain ⟨c', hc', hk⟩ := forall₂_getElem? h i c hc
  exact ⟨c', hc', kept_sameRegistration hk⟩

theorem forall₂_kept_button {σ : Type} {a a' : List (Control σ)}
    (h : List.Forall₂ Control.Kept a a') (i : Nat) (b : Button σ)
    (hb : a[i]? = some (Control.button b)) : a'[i]? = some (Control.button b) := by
  obtain ⟨c', hc', hk⟩ := forall₂_getElem? h i _ hb
  have hk' : c' = Control.button b := hk
  rw [hc', hk']

/-- The selectbox observer changes no button, no registration, and nothing of
the editor. -/
theorem observeStateChangesSelectbox_kept {σ : Type} (toolbar : Toolbar σ) (j : Nat)
    (s : Selectbox σ) (hj : toolbar.element[j]? = some (Control.selectbox s)) :
    List.Forall₂ Control.Kept toolbar.element
        (observeStateChangesSelectbox toolbar j s).element ∧
      (observeStateChangesSelectbox toolbar j s).editor = toolbar.editor ∧
      (observeStateChangesSelectbox toolbar j s).host = toolbar.host ∧
      (observeStateChangesSelectbox toolbar j s).stopped = toolbar.stopped := by
  unfold observeStateChangesSelectbox
  by_cases hne : looseNe toolbar.host (s.query toolbar.editor) s.previousState = true
  · have hset := forall₂_kept_set toolbar.element j (Control.selectbox s)
      (Control.selectbox { s with previousState := Cached.value (s.query toolbar.editor) })
      hj ⟨s.element, _, rfl⟩
    simp only [hne, if_true]
    split
    · rename_i e he
      exact ⟨forall₂_kept_trans hset (updateSelectboxState_kept _ _ _ _ he), rfl, rfl, rfl⟩
    · exact ⟨hset, rfl, rfl, rfl⟩
  · simp only [hne]
    exact ⟨forall₂_kept_refl _, rfl, rfl, rfl⟩

theorem notifyObserver_editor {σ : Type} (toolbar : Toolbar σ) (j : Nat) :
    (notifyObserver toolbar j).editor = toolbar.editor ∧
      (notifyObserver toolbar j).host = toolbar.host ∧
      (notifyObserver toolbar j).stopped = toolbar.stopped := by
  unfold notifyObserver
  cases hj : toolbar.element[j]? with
  | none => exact ⟨rfl, rfl, rfl⟩
  | some c =>
    cases c with
    | button b => exact ⟨rfl, rfl, rfl⟩
    | selectbox s => exact (observeStateChangesSelectbox_kept toolbar j s hj).2

theorem persists_set {σ : Type} (element : List (Control σ)) (j : Nat) (c c' : Control σ)
    (hj : element[j]? = some c) (hs : Control.SameRegistration c c') :
    Persists element (element.set j c') := by
  intro i x hx
  by_cases hij : j = i
  · subst hij
    rw [hj] at hx
    cases hx
    have hlt : j < element.length := by
      by_contra hn
      rw [List.getElem?_eq_none (Nat.le_of_not_lt hn)] at hj
      cases hj
    exact ⟨c', by simp [List.getElem?_set_self hlt], hs⟩
  · exact ⟨x, by rw [List.getElem?_set_ne hij]; exact hx, sameRegistration_refl x⟩

theorem observeStateChanges_registration {σ : Type} (editor : Editor σ) (b : Button σ) :
    (observeStateChanges editor b).name = b.name ∧
      (observeStateChanges editor b).handler = b.handler ∧
      (observeStateChanges editor b).query = b.query := by
  simp only [observeStateChanges]
  split <;> exact ⟨rfl, rfl, rfl⟩

theorem notifyObserver_persists {σ : Type} (toolbar : Toolbar σ) (j : Nat) :
    Persists toolbar.element (notifyObserver toolbar j).element := by
  unfold notifyObserver
  cases hj : toolbar.element[j]? with
  | none => exact persists_refl _
  | some c =>
    cases c with
    | button b =>
      exact persists_set _ j _ _ hj (observeStateChanges_registration toolbar.editor b)
    | selectbox s =>
      exact forall₂_kept_persists (observeStateChangesSelectbox_kept toolbar j s hj).1

/-- An observer leaves the buttons of the other children as they are. -/
theorem notifyObserver_other_button {σ : Type} (toolbar : Toolbar σ) (i j : Nat)
    (b : Button σ) (hij : j ≠ i) (hb : toolbar.element[i]? = some (Control.button b)) :
    (notifyObserver toolbar j).element[i]? = some (Control.button b) := by
  unfold notifyObserver
  cases hj : toolbar.element[j]? with
  | none => exact hb
  | some c =>
    cases c with
    | button b' =>
      show (toolbar.element.set j _)[i]? = _
      rw [List.getElem?_set_ne hij]
      exact hb
    | selectbox s =>
      exact forall₂_kept_button (observeStateChangesSelectbox_kept toolbar j s hj).1 i b hb

/-- The observer of a button runs the callback of `observeStateChanges` on it. -/
theorem notifyObserver_own_button {σ : Type} (toolbar : Toolbar σ) (i : Nat)
    (b : Button σ) (hb : toolbar.element[i]? = some (Control.button b)) :
    (notifyObserver toolbar i).element[i]? =
      some (Control.button (observeStateChanges toolbar.editor b)) := by
  have hlt : i < toolbar.element.length := by
    by_contra hn
    rw [List.getElem?_eq_none (Nat.le_of_not_lt hn)] at hb
    cases hb
  unfold notifyObserver
  rw [hb]
  show (toolbar.element.set i _)[i]? = _
  simp [List.getElem?_set_self hlt]

/-! ## One notification -/

theorem foldl_notifyObserver_editor {σ : Type} (js : List Nat) (toolbar : Toolbar σ) :
    (js.foldl notifyObserver toolbar).editor = toolbar.editor ∧
      (js.foldl notifyObserver toolbar).host = toolbar.host ∧
      (js.foldl notifyObserver toolbar).stopped = toolbar.stopped := by
  induction js generalizing toolbar with
  | nil => exact ⟨rfl, rfl, rfl⟩
  | cons j js ih =>
    obtain ⟨h1, h2, h3⟩ := ih (notifyObserver toolbar j)
    obtain ⟨g1, g2, g3⟩ := notifyObserver_editor toolbar j
    exact ⟨h1.trans g1, h2.trans g2, h3.trans g3⟩

theorem foldl_notifyObserver_persists {σ : Type} (js : List Nat) (toolbar : Toolbar σ) :
    Persists toolbar.element (js.foldl notifyObserver toolbar).element := by
  induction js generalizing toolbar with
  | nil => exact persists_refl _
  | cons j js ih => exact persists_trans (notifyObserver_persists toolbar j) (ih _)

theorem foldl_notifyObserver_button {σ : Type} (js : List Nat) (hjs : js.Nodup)
    (toolbar : Toolbar σ) (i : Nat) (b : Button σ)
    (hb : toolbar.element[i]? = some (Control.button b)) :
    (js.foldl notifyObserver toolbar).element[i]? =
      some (Control.button (if i ∈ js then observeStateChanges toolbar.editor b else b)) := by
  induction js generalizing toolbar b with
  | nil => simpa using hb
  | cons j js ih =>
    obtain ⟨hj, hjs'⟩ := List.nodup_cons.mp hjs
    have hed := (notifyObserver_editor toolbar j).1
    by_cases hij : j = i
    · subst hij
      have h := ih hjs' (notifyObserver toolbar j) _ (notifyObserver_own_button toolbar j b hb)
      simp only [List.foldl_cons, h, hj, if_false, List.mem_cons, true_or, if_true]
    · have h := ih hjs' (notifyObserver toolbar j) b
        (notifyObserver_other_button toolbar i j b hij hb)
      have hij' : ¬ i = j := fun e => hij e.symm
      simp only [List.foldl_cons, h, hed, List.mem_cons, hij', false_or]

theorem notifyObservers_editor {σ : Type} (toolbar : Toolbar σ) :
    (notifyObservers toolbar).editor = toolbar.editor ∧
      (notifyObservers toolbar).host = toolbar.host ∧
      (notifyObservers toolbar).stopped = toolbar.stopped :=
  foldl_notifyObserver_editor _ toolbar

theorem notifyObservers_persists {σ : Type} (toolbar : Toolbar σ) :
    Persists toolbar.element (notifyObservers toolbar).element :=
  foldl_notifyObserver_persists _ toolbar

/-- A notification runs the observer of every button exactly once. -/
theorem notifyObservers_button {σ : Type} (toolbar : Toolbar σ) (i : Nat) (b : Button σ)
    (hb : toolbar.element[i]? = some (Control.button b)) :
    (notifyObservers toolbar).element[i]? =
      some (Control.button (observeStateChanges toolbar.editor b)) := by
  have hlt : i < toolbar.element.length := by
    by_contra hn
    rw [List.getElem?_eq_none (Nat.le_of_not_lt hn)] at hb
    cases hb
  have h := foldl_notifyObserver_button (List.range toolbar.element.length)
    (List.nodup_range _) toolbar i b hb
  simpa [notifyObservers, List.mem_range, hlt] using h

/-- The body of both listeners after the handler ran: the two `fire` calls
deliver one notification on the editor with both notifications recorded, then
`Event.stop`. -/
theorem fire_change_cursormove {σ : Type} (toolbar : Toolbar σ) :
    fire (fire toolbar "wysihat:change") "wysihat:cursormove" =
      notifyObservers
        { toolbar with
          editor :=
            { toolbar.editor with
              log := toolbar.editor.log ++
                [Call.fire "wysihat:change", Call.fire "wysihat:cursormove"] } } := by
  have hne : ("wysihat:change" = "wysihat:cursormove") = False := by decide
  simp only [fire, hne, if_false, if_true, List.append_assoc, List.singleton_append]

/-- What a handler followed by the two `fire` calls and `Event.stop` leaves. -/
theorem fired_after_handler {σ : Type} (toolbar : Toolbar σ) (h : Handler σ) :
    (observeButtonClick toolbar h).editor =
        { h toolbar.editor with
          log := (h toolbar.editor).log ++
            [Call.fire "wysihat:change", Call.fire "wysihat:cursormove"] } ∧
      Persists toolbar.element (observeButtonClick toolbar h).element ∧
      ∀ (i : Nat) (b : Button σ), toolbar.element[i]? = some (Control.button b) →
        (observeButtonClick toolbar h).element[i]? =
          some (Control.button
            (observeStateChanges (observeButtonClick toolbar h).editor b)) := by
  obtain ⟨T, hT, hTed, hTel⟩ : ∃ T : Toolbar σ,
      fire (fire { toolbar with editor := h toolbar.editor } "wysihat:change")
        "wysihat:cursormove" = notifyObservers T ∧
      T.editor = { h toolbar.editor with
        log := (h toolbar.editor).log ++
          [Call.fire "wysihat:change", Call.fire "wysihat:cursormove"] } ∧
      T.element = toolbar.element :=
    ⟨_, fire_change_cursormove _, rfl, rfl⟩
  have hed : (observeButtonClick toolbar h).editor = T.editor := by
    show (fire (fire { toolbar with editor := h toolbar.editor } "wysihat:change")
      "wysihat:cursormove").editor = T.editor
    rw [hT]
    exact (notifyObservers_editor T).1
  have hel : (observeButtonClick toolbar h).element = (notifyObservers T).element := by
    show (fire (fire { toolbar with editor := h toolbar.editor } "wysihat:change")
      "wysihat:cursormove").element = _
    rw [hT]
  refine ⟨hed.trans hTed, ?_, ?_⟩
  · rw [hel, ← hTel]
    exact notifyObservers_persists T
  · intro i b hb
    rw [hel, hed]
    rw [← hTel] at hb
    exact notifyObservers_button T i b hb

/-! ## One step -/

theorem getElem?_append_of_some {α : Type} (a b : List α) (i : Nat) (c : α)
    (h : a[i]? = some c) : (a ++ b)[i]? = some c := by
  have hi : i < a.length := by
    by_contra hn
    rw [List.getElem?_eq_none (Nat.le_of_not_lt hn)] at h
    cases h
  rw [List.getElem?_append_left hi]
  exact h

/-- A registration call that returns has appended one child and changed
nothing else. -/
theorem addButton_appends {σ : Type} (toolbar t' : Toolbar σ) (o : ButtonOptions σ)
    (h : Option (Handler σ)) (hok : addButton toolbar o h = .ok t') :
    ∃ c, t' = { toolbar with element := toolbar.element ++ [c] } := by
  unfold addButton at hok
  split at hok
  · cases hok
  · cases hok
    exact ⟨_, rfl⟩

theorem addSelectbox_appends {σ : Type} (toolbar t' : Toolbar σ) (o : SelectboxOptions σ)
    (h : Option (List (String × Handler σ))) (hok : addSelectbox toolbar o h = .ok t') :
    ∃ c, t' = { toolbar with element := toolbar.element ++ [c] } := by
  unfold addSelectbox at hok
  split at hok
  · cases hok
  · dsimp only at hok
    split at hok
    · cases hok
    · split at hok
      · cases hok
      · cases hok
        exact ⟨_, rfl⟩

theorem addButtonSet_appends {σ : Type} (toolbar : Toolbar σ) (set : List (ButtonOptions σ)) :
    ∃ cs, (addButtonSet toolbar set).1 = { toolbar with element := toolbar.element ++ cs } := by
  induction set generalizing toolbar with
  | nil => exact ⟨[], by simp [addButtonSet]⟩
  | cons d set ih =>
    cases hd : addButton toolbar d none with
    | error e => exact ⟨[], by simp [addButtonSet, hd]⟩
    | ok t' =>
      obtain ⟨c, rfl⟩ := addButton_appends toolbar t' d none hd
      obtain ⟨cs, hcs⟩ := ih { toolbar with element := toolbar.element ++ [c] }
      exact ⟨c :: cs, by simp [addButtonSet, hd, hcs]⟩

/-- A step that is a registration call appends children and changes nothing
else. -/
theorem step_registration {σ : Type} (toolbar : Toolbar σ) (s : Step σ)
    (hs : match s with
      | Step.addButton _ _ => True
      | Step.addSelectbox _ _ => True
      | Step.addButtonSet _ => True
      | _ => False) :
    ∃ cs, step toolbar s = { toolbar with element := toolbar.element ++ cs } := by
  cases s with
  | addButton o h =>
    cases hd : addButton toolbar o h with
    | error e => exact ⟨[], by simp [step, hd]⟩
    | ok t' =>
      obtain ⟨c, rfl⟩ := addButton_appends toolbar t' o h hd
      exact ⟨[c], by simp [step, hd]⟩
  | addSelectbox o h =>
    cases hd : addSelectbox toolbar o h with
    | error e => exact ⟨[], by simp [step, hd]⟩
    | ok t' =>
      obtain ⟨c, rfl⟩ := addSelectbox_appends toolbar t' o h hd
      exact ⟨[c], by simp [step, hd]⟩
  | addButtonSet set => exact addButtonSet_appends toolbar set
  | click i => exact absurd hs id
  | change i v => exact absurd hs id
  | cursormove st => exact absurd hs id

/-- A change event whose value has an entry in the handler object runs the
same listener body as a click with that entry as handler. -/
theorem observeOptionSelect_of_entry {σ : Type} (toolbar : Toolbar σ)
    (handler : List (String × Handler σ)) (value : String) (h : Handler σ)
    (hv : getProperty toolbar.host handler value = Member.own h) :
    observeOptionSelect toolbar handler value = observeButtonClick toolbar h := by
  simp only [observeOptionSelect, hv, observeButtonClick]

/-- A change event whose value names an inherited member that returns runs the
listener body with the editor left as it is. -/
theorem observeOptionSelect_of_inherited {σ : Type} (toolbar : Toolbar σ)
    (handler : List (String × Handler σ)) (value : String) (u : Unit)
    (hv : getProperty toolbar.host handler value = Member.inherited (.ok u)) :
    observeOptionSelect toolbar handler value =
      observeButtonClick toolbar (fun editor => editor) := by
  simp only [observeOptionSelect, hv, observeButtonClick]

/-- Every step keeps every registered child at its position with its
registration. -/
theorem step_persists {σ : Type} (toolbar : Toolbar σ) (s : Step σ) :
    Persists toolbar.element (step toolbar s).element := by
  cases s with
  | addButton o h =>
    obtain ⟨cs, hcs⟩ := step_registration toolbar (Step.addButton o h) trivial
    rw [hcs]
    exact persists_append _ _
  | addSelectbox o h =>
    obtain ⟨cs, hcs⟩ := step_registration toolbar (Step.addSelectbox o h) trivial
    rw [hcs]
    exact persists_append _ _
  | addButtonSet set =>
    obtain ⟨cs, hcs⟩ := step_registration toolbar (Step.addButtonSet set) trivial
    rw [hcs]
    exact persists_append _ _
  | click i =>
    simp only [step, click]
    split
    · exact (fired_after_handler toolbar _).2.1
    · exact persists_refl _
  | change i v =>
    simp only [step, change]
    split
    · rename_i sb _
      cases hv : getProperty toolbar.host sb.handler v with
      | undefined =>
        simp only [observeOptionSelect, hv]
        exact persists_refl _
      | inherited call =>
        cases call with
        | error e =>
          simp only [observeOptionSelect, hv]
          exact persists_refl _
        | ok u =>
          rw [observeOptionSelect_of_inherited toolbar _ v u hv]
          exact (fired_after_handler toolbar _).2.1
      | own h =>
        rw [observeOptionSelect_of_entry toolbar _ v h hv]
        exact (fired_after_handler toolbar _).2.1
    · exact persists_refl _
  | cursormove st =>
    simp only [step, cursormove]
    exact notifyObservers_persists
      { toolbar with editor := { toolbar.editor with state := st } }

/-- What a step does to a registered button: when the step delivers a
notification the button's observer runs once, on the editor as the step leaves
it; otherwise the button is as before. -/
theorem step_button {σ : Type} (toolbar : Toolbar σ) (s : Step σ) (i : Nat) (b : Button σ)
    (hb : toolbar.element[i]? = some (Control.button b)) :
    (step toolbar s).element[i]? =
      some (Control.button
        (if delivers toolbar s then observeStateChanges (step toolbar s).editor b else b)) := by
  cases s with
  | addButton o h =>
    obtain ⟨cs, hcs⟩ := step_registration toolbar (Step.addButton o h) trivial
    rw [hcs]
    simpa [delivers] using getElem?_append_of_some _ cs i _ hb
  | addSelectbox o h =>
    obtain ⟨cs, hcs⟩ := step_registration toolbar (Step.addSelectbox o h) trivial
    rw [hcs]
    simpa [delivers] using getElem?_append_of_some _ cs i _ hb
  | addButtonSet set =>
    obtain ⟨cs, hcs⟩ := step_registration toolbar (Step.addButtonSet set) trivial
    rw [hcs]
    simpa [delivers] using getElem?_append_of_some _ cs i _ hb
  | click j =>
    cases hj : toolbar.element[j]? with
    | none => simpa [step, click, delivers, hj] using hb
    | some c =>
      cases c with
      | button bj =>
        simp only [step, click, delivers, hj, if_true]
        exact (fired_after_handler toolbar _).2.2 i b hb
      | selectbox sj => simpa [step, click, delivers, hj] using hb
  | change j v =>
    cases hj : toolbar.element[j]? with
    | none => simpa [step, change, delivers, hj] using hb
    | some c =>
      cases c with
      | button bj => simpa [step, change, delivers, hj] using hb
      | selectbox sj =>
        cases hv : getProperty toolbar.host sj.handler v with
        | undefined => simpa [step, change, delivers, hj, hv, observeOptionSelect] using hb
        | inherited call =>
          cases call with
          | error e => simpa [step, change, delivers, hj, hv, observeOptionSelect] using hb
          | ok u =>
            simp only [step, change, delivers, hj, hv, if_true]
            rw [observeOptionSelect_of_inherited toolbar _ v u hv]
            exact (fired_after_handler toolbar _).2.2 i b hb
        | own h =>
          simp only [step, change, delivers, hj, hv, if_true]
          rw [observeOptionSelect_of_entry toolbar _ v h hv]
          exact (fired_after_handler toolbar _).2.2 i b hb
  | cursormove st =>
    simp only [step, cursormove, delivers, if_true]
    rw [(notifyObservers_editor _).1]
    exact notifyObservers_button
      { toolbar with editor := { toolbar.editor with state := st } } i b hb

/-! ## Runs -/

theorem run_cons {σ : Type} (toolbar : Toolbar σ) (s : Step σ) (steps : List (Step σ)) :
    run toolbar (s :: steps) = run (step toolbar s) steps := rfl

theorem run_append_singleton {σ : Type} (toolbar : Toolbar σ) (steps : List (Step σ))
    (s : Step σ) : run toolbar (steps ++ [s]) = step (run toolbar steps) s := by
  simp [run, List.foldl_append]

theorem run_persists {σ : Type} (toolbar : Toolbar σ) (steps : List (Step σ)) :
    Persists toolbar.element (run toolbar steps).element := by
  induction steps generalizing toolbar with
  | nil => exact persists_refl _
  | cons s steps ih => exact persists_trans (step_persists toolbar s) (ih _)

theorem getElem?_length_append_singleton {α : Type} (a : List α) (c : α) :
    (a ++ [c])[a.length]? = some c := by
  simp

/-! ## Default action wiring -/

theorem lookup_map_self {α : Type} (mk : String → α) (keys : List String)
    (rest : List (String × α)) (k : String) (hk : k ∈ keys) :
    (keys.map (fun key => (key, mk key)) ++ rest).lookup k = some (mk k) := by
  induction keys with
  | nil => cases hk
  | cons key keys ih =>
    by_cases he : k = key
    · subst he
      simp [List.lookup]
    · have hk' : k ∈ keys := by
        rcases List.mem_cons.mp hk with h | h
        · exact absurd h he
        · exact h
      have hb : (k == key) = false := by simpa using he
      simp only [List.map_cons, List.cons_append, List.lookup, hb]
      exact ih hk'

theorem foldl_setProperty {α : Type} (mk : String → α) (keys : List String)
    (object : List (String × α)) :
    keys.foldl (fun handlers option => setProperty handlers option (mk option)) object =
      keys.reverse.map (fun key => (key, mk key)) ++ object := by
  induction keys generalizing object with
  | nil => rfl
  | cons key keys ih =>
    rw [List.foldl_cons, ih]
    simp [setProperty]

/-- The handler object built by `selectboxHandler` has, for every option, the
function that calls `execCommand(name, false, option)`. -/
theorem selectboxHandler_entry {σ : Type} (name : String) (o : SelectboxOptions σ)
    (opts : List String) (hh : o.handler = none) (ho : o.options = some opts)
    (option : String) (hmem : option ∈ opts) :
    ∃ table, selectboxHandler name o = .ok table ∧
      ∀ host : Host, getProperty host table option =
        Member.own (fun editor : Editor σ =>
          editor.execCommand [Arg.str name, Arg.bool false, Arg.str option]) := by
  have htable : selectboxHandler name o =
      .ok (opts.foldl
        (fun handlers option =>
          setProperty handlers option
            (fun editor : Editor σ =>
              editor.execCommand [Arg.str name, Arg.bool false, Arg.str option]))
        []) := by
    simp only [selectboxHandler, directProperty, hh, ho]
  refine ⟨_, htable, fun host => ?_⟩
  rw [foldl_setProperty
    (fun option => fun editor : Editor σ =>
      editor.execCommand [Arg.str name, Arg.bool false, Arg.str option])]
  simp only [getProperty,
    lookup_map_self _ _ _ option (List.mem_reverse.mpr hmem)]

/-- The child a successful `addButton` call leaves at the end of the
container. -/
theorem step_addButton_registered {σ : Type} (toolbar : Toolbar σ) (o : ButtonOptions σ)
    (h : Option (Handler σ)) (n : String) (hn : defaultName toolbar.host o.name o.label = .ok n) :
    (step toolbar (Step.addButton o h)).element[toolbar.element.length]? =
      some (Control.button
        { element := createButtonElement toolbar.host n o.label
          name := n
          handler := buttonHandler n { o with name := some n }
          query := buttonStateHandler n { o with name := some n }
          previousState := false
          updates := [] }) := by
  simp only [step, addButton_of_label toolbar o h n hn]
  exact getElem?_length_append_singleton _ _

/-- C1: for a button registered by `addButton` without a `handler` entry, under
the name `n` after defaulting, and whatever happened to the toolbar and the
editor since, one click on the button adds to the record of the editor exactly
`execCommand(n)`, then "wysihat:change", then "wysihat:cursormove", and nothing
else; the editor's state is the one `execCommand(n)` leaves, and the event is
stopped. -/
theorem default_click_wiring {σ : Type} (toolbar : Toolbar σ) (o : ButtonOptions σ)
    (h : Option (Handler σ)) (n : String) (steps : List (Step σ))
    (hh : o.handler = none) (hn : defaultName toolbar.host o.name o.label = .ok n) :
    (click (run (step toolbar (Step.addButton o h)) steps) toolbar.element.length).editor.log =
        (run (step toolbar (Step.addButton o h)) steps).editor.log ++
          [Call.execCommand [Arg.str n], Call.fire "wysihat:change",
           Call.fire "wysihat:cursormove"] ∧
      (click (run (step toolbar (Step.addButton o h)) steps) toolbar.element.length).editor.state =
        (run (step toolbar (Step.addButton o h)) steps).editor.api.execCommand [Arg.str n]
          (run (step toolbar (Step.addButton o h)) steps).editor.state ∧
      (click (run (step toolbar (Step.addButton o h)) steps) toolbar.element.length).stopped =
        (run (step toolbar (Step.addButton o h)) steps).stopped + 1 := by
  have hstep := step_addButton_registered toolbar o h n hn
  obtain ⟨c', hc', hsame⟩ := run_persists _ steps _ _ hstep
  cases c' with
  | selectbox s' => exact absurd hsame id
  | button b' =>
    have hhandler : b'.handler = fun editor => editor.execCommand [Arg.str n] := by
      rw [hsame.2.1]
      simp only [buttonHandler, directProperty, hh]
    have hclick : click (run (step toolbar (Step.addButton o h)) steps) toolbar.element.length =
        observeButtonClick (run (step toolbar (Step.addButton o h)) steps) b'.handler := by
      simp only [click, hc']
    rw [hclick]
    refine ⟨?_, ?_, ?_⟩
    · rw [(fired_after_handler _ _).1, hhandler]
      simp [Editor.execCommand]
    · rw [(fired_after_handler _ _).1, hhandler]
      simp [Editor.execCommand]
    · simp only [observeButtonClick]
      rw [fire_change_cursormove, (notifyObservers_editor _).2.2]

theorem default_click_wiring_witness :
    (click (run (step freshToolbar
        (Step.addButton { name := none, label := some "Bold", handler := none, query := none }
          none)) [Step.cursormove true]) freshToolbar.element.length).editor.log =
        (run (step freshToolbar
          (Step.addButton { name := none, label := some "Bold", handler := none, query := none }
            none)) [Step.cursormove true]).editor.log ++
          [Call.execCommand [Arg.str "bold"], Call.fire "wysihat:change",
           Call.fire "wysihat:cursormove"] :=
  (default_click_wiring freshToolbar
    { name := none, label := some "Bold", handler := none, query := none } none "bold"
    [Step.cursormove true] rfl rfl).1

/-- C2 fails on the code: after `addButton({name: 'bold', label: "Bold"},
function(editor) { editor.boldSelection(); })`, a click on the button calls
`execCommand('bold')` and never `boldSelection`; the toolbar is the one the call
without a second argument builds. -/
theorem second_argument_handler_ignored :
    (click
        (step freshToolbar
          (Step.addButton
            { name := some "bold", label := some "Bold", handler := none, query := none }
            (some boldSelection)))
        0).editor.log
      = [Call.execCommand [Arg.str "bold"], Call.fire "wysihat:change",
         Call.fire "wysihat:cursormove"] ∧
    Call.other "boldSelection" ∉
      (click
        (step freshToolbar
          (Step.addButton
            { name := some "bold", label := some "Bold", handler := none, query := none }
            (some boldSelection)))
        0).editor.log ∧
    addButton freshToolbar
        { name := some "bold", label := some "Bold", handler := none, query := none }
        (some boldSelection)
      = addButton freshToolbar
        { name := some "bold", label := some "Bold", handler := none, query := none }
        none := by
  have hlog : (click
        (step freshToolbar
          (Step.addButton
            { name := some "bold", label := some "Bold", handler := none, query := none }
            (some boldSelection)))
        0).editor.log
      = [Call.execCommand [Arg.str "bold"], Call.fire "wysihat:change",
         Call.fire "wysihat:cursormove"] := rfl
  refine ⟨hlog, ?_, rfl⟩
  rw [hlog]
  decide

/-- The child a successful `addSelectbox` call without a `handler` entry leaves
at the end of the container. -/
theorem step_addSelectbox_registered {σ : Type} (toolbar : Toolbar σ)
    (o : SelectboxOptions σ) (h : Option (List (String × Handler σ))) (n : String)
    (opts : List String) (hh : o.handler = none)
    (hn : defaultName toolbar.host o.name o.label = .ok n) (ho : o.options = some opts) :
    ∃ table,
      selectboxHandler n { o with name := some n } = .ok table ∧
      (step toolbar (Step.addSelectbox o h)).element[toolbar.element.length]? =
        some (Control.selectbox
          { element := createSelectboxElement opts
            name := n
            handler := table
            query := selectboxStateHandler n { o with name := some n }
            previousState := Cached.initial }) := by
  obtain ⟨oname, olabel, ohandler, oquery, ooptions⟩ := o
  simp only at hh hn ho
  subst hh ho
  refine ⟨_, rfl, ?_⟩
  simp only [step, addSelectbox, hn, selectboxHandler, directProperty]
  exact getElem?_length_append_singleton _ _

/-- C7: for a selectbox registered by `addSelectbox` under the name `n` with the
options list `L` and no `handler` entry, and whatever happened to the toolbar
and the editor since, a change event raised while the control's value is an
option `o` of `L` adds to the record of the editor exactly
`execCommand(n, false, o)`, then "wysihat:change", then "wysihat:cursormove". -/
theorem default_selectbox_dispatch {σ : Type} (toolbar : Toolbar σ)
    (o : SelectboxOptions σ) (h : Option (List (String × Handler σ))) (n : String)
    (opts : List String) (option : String) (steps : List (Step σ))
    (hh : o.handler = none) (hn : defaultName toolbar.host o.name o.label = .ok n)
    (ho : o.options = some opts) (hmem : option ∈ opts) :
    (change (run (step toolbar (Step.addSelectbox o h)) steps)
        toolbar.element.length option).editor.log =
      (run (step toolbar (Step.addSelectbox o h)) steps).editor.log ++
        [Call.execCommand [Arg.str n, Arg.bool false, Arg.str option],
         Call.fire "wysihat:change", Call.fire "wysihat:cursormove"] ∧
    (change (run (step toolbar (Step.addSelectbox o h)) steps)
        toolbar.element.length option).editor.state =
      (run (step toolbar (Step.addSelectbox o h)) steps).editor.api.execCommand
        [Arg.str n, Arg.bool false, Arg.str option]
        (run (step toolbar (Step.addSelectbox o h)) steps).editor.state := by
  obtain ⟨table, htable, hstep⟩ := step_addSelectbox_registered toolbar o h n opts hh hn ho
  obtain ⟨table', htable', hentry⟩ :=
    selectboxHandler_entry n { o with name := some n } opts hh ho option hmem
  rw [htable] at htable'
  cases htable'
  obtain ⟨c', hc', hsame⟩ := run_persists _ steps _ _ hstep
  cases c' with
  | button b' => exact absurd hsame id
  | selectbox s' =>
    have hhandler : getProperty (run (step toolbar (Step.addSelectbox o h)) steps).host
          s'.handler option =
        Member.own (fun editor : Editor σ =>
          editor.execCommand [Arg.str n, Arg.bool false, Arg.str option]) := by
      rw [hsame.2.1]
      exact hentry _
    have hchange : change (run (step toolbar (Step.addSelectbox o h)) steps)
          toolbar.element.length option =
        observeButtonClick (run (step toolbar (Step.addSelectbox o h)) steps)
          (fun editor : Editor σ =>
            editor.execCommand [Arg.str n, Arg.bool false, Arg.str option]) := by
      simp only [change, hc']
      exact observeOptionSelect_of_entry _ _ _ _ hhandler
    rw [hchange, (fired_after_handler _ _).1]
    constructor <;> simp [Editor.execCommand]

theorem default_selectbox_dispatch_witness :
    (change (run (step freshToolbar
        (Step.addSelectbox
          { name := some "style", label := none, handler := none, query := none,
            options := some ["a", "b"] } none)) [])
        freshToolbar.element.length "b").editor.log =
      (run (step freshToolbar
        (Step.addSelectbox
          { name := some "style", label := none, handler := none, query := none,
            options := some ["a", "b"] } none)) []).editor.log ++
        [Call.execCommand [Arg.str "style", Arg.bool false, Arg.str "b"],
         Call.fire "wysihat:change", Call.fire "wysihat:cursormove"] :=
  (default_selectbox_dispatch freshToolbar
    { name := some "style", label := none, handler := none, query := none,
      options := some ["a", "b"] } none "style" ["a", "b"] "b" [] rfl rfl rfl
    (by decide)).1

/-- C10 fails on the code: on the first notification after registration, with
no style under the selectbox's name, the query result is `undefined`, it
differs from the initial `false`, and `$(undefined).selected = true` raises a
TypeError out of the observer; no option's `selected` property changes. A
query result "c" that is the id of no element raises the same way. -/
theorem selectbox_observer_raises_on_undefined :
    (step freshToolbar
        (Step.addSelectbox
          { name := some "style", label := none, handler := none, query := none,
            options := some ["a", "b"] } none)).uncaught = [] ∧
    (run freshToolbar
        [Step.addSelectbox
          { name := some "style", label := none, handler := none, query := none,
            options := some ["a", "b"] } none,
         Step.cursormove false]).uncaught = [JSError.typeError] ∧
    (run freshToolbar
        [Step.addSelectbox
          { name := some "style", label := none, handler := none, query := none,
            options := some ["a", "b"] } none,
         Step.cursormove false]).element.map Control.options? =
      (step freshToolbar
        (Step.addSelectbox
          { name := some "style", label := none, handler := none, query := none,
            options := some ["a", "b"] } none)).element.map Control.options? ∧
    (run freshToolbar
        [Step.addSelectbox
          { name := some "style", label := none, handler := none,
            query := some (fun _ => some "c"), options := some ["a", "b"] } none,
         Step.cursormove false]).uncaught = [JSError.typeError] :=
  ⟨rfl, rfl, rfl, rfl⟩

/-! ## Buttons follow the editor's state -/

/-- The observer of a button keeps element and cache in step, and leaves the
query result of the notification in the cache. -/
theorem observeStateChanges_inStep {σ : Type} (editor : Editor σ) (b : Button σ)
    (hb : b.InStep) :
    (observeStateChanges editor b).InStep ∧
      (observeStateChanges editor b).previousState = b.query editor := by
  obtain ⟨hcount, hsel⟩ := hb
  simp only [observeStateChanges]
  by_cases hne : (b.query editor != b.previousState) = true
  · simp only [hne, if_true]
    refine ⟨?_, trivial⟩
    cases hq : b.query editor with
    | true =>
      have hp : b.previousState = false := by
        rw [hq] at hne
        cases hprev : b.previousState with
        | true => rw [hprev] at hne; simp at hne
        | false => rfl
      have hnot : "selected" ∉ b.element.className := by
        intro hm
        rw [hsel.mp hm] at hp
        cases hp
      have hzero : b.element.className.count "selected" = 0 :=
        List.count_eq_zero_of_not_mem hnot
      have hadd : addClassName b.element.className selectedClass =
          b.element.className ++ ["selected"] := by
        simp only [addClassName, hasClassName, selectedClass, hnot, decide_False,
          Bool.false_eq_true, if_false]
      simp only [Button.InStep, updateButtonState, if_true, hadd]
      refine ⟨?_, ?_⟩
      · rw [List.count_append, hzero]
        simp
      · simp
    | false =>
      have hrem : removeClassName b.element.className selectedClass =
          b.element.className.erase "selected" := rfl
      simp only [Button.InStep, updateButtonState, Bool.false_eq_true, if_false, hrem]
      have hzero : (b.element.className.erase "selected").count "selected" = 0 := by
        rw [List.count_erase_self]
        omega
      refine ⟨by omega, ?_⟩
      have hnot : "selected" ∉ b.element.className.erase "selected" := by
        intro hm
        have := List.count_pos_iff.mpr hm
        omega
      simp [hnot]
  · have heq : b.query editor = b.previousState := by
      cases hq : b.query editor <;> cases hprev : b.previousState <;>
        simp [hq, hprev] at hne ⊢
    simp only [hne]
    exact ⟨⟨hcount, hsel⟩, heq.symm⟩

/-- A property of a button that its own observer keeps holds of the button
throughout every run. -/
theorem run_button_invariant {σ : Type} (P : Button σ → Prop)
    (hP : ∀ (editor : Editor σ) (b : Button σ), P b → P (observeStateChanges editor b))
    (steps : List (Step σ)) (toolbar : Toolbar σ) (i : Nat) (b : Button σ)
    (hb : toolbar.element[i]? = some (Control.button b)) (hPb : P b) :
    ∃ b', (run toolbar steps).element[i]? = some (Control.button b') ∧ P b' := by
  induction steps generalizing toolbar b with
  | nil => exact ⟨b, hb, hPb⟩
  | cons s steps ih =>
    refine ih (step toolbar s) _ (step_button toolbar s i b hb) ?_
    split
    · exact hP _ _ hPb
    · exact hPb

/-- C3: for a button registered by `addButton` whose element starts without
the 'selected' class (its query handler answers booleans by type), and whatever
happened to the toolbar and the editor since, after every step that delivers a
"wysihat:cursormove" notification the button carries the 'selected' class if and
only if its query handler, asked on the editor of that notification, answers
true. -/
theorem selected_class_follows_query {σ : Type} (toolbar : Toolbar σ) (o : ButtonOptions σ)
    (h : Option (Handler σ)) (n : String) (steps : List (Step σ)) (s : Step σ)
    (hn : defaultName toolbar.host o.name o.label = .ok n)
    (hsel : "selected" ∉ (createButtonElement toolbar.host n o.label).className)
    (hd : delivers (run (step toolbar (Step.addButton o h)) steps) s = true) :
    ∃ b : Button σ,
      (step (run (step toolbar (Step.addButton o h)) steps) s).element[toolbar.element.length]?
        = some (Control.button b) ∧
      b.query = buttonStateHandler n { o with name := some n } ∧
      ("selected" ∈ b.element.className ↔
        buttonStateHandler n { o with name := some n }
          (step (run (step toolbar (Step.addButton o h)) steps) s).editor = true) := by
  have hstep := step_addButton_registered toolbar o h n hn
  have hnot := hsel
  have hnd : (createButtonElement toolbar.host n o.label).className.count "selected" ≤ 1 := by
    rw [List.count_eq_zero_of_not_mem hsel]
    exact Nat.zero_le 1
  obtain ⟨b', hb', hin, hq⟩ := run_button_invariant
    (fun b => b.InStep ∧ b.query = buttonStateHandler n { o with name := some n })
    (fun editor b hb =>
      ⟨(observeStateChanges_inStep editor b hb.1).1,
        (observeStateChanges_registration editor b).2.2.trans hb.2⟩)
    steps _ _ _ hstep ⟨⟨hnd, by simpa [Button.InStep] using hnot⟩, rfl⟩
  have hafter := step_button _ s _ b' hb'
  rw [hd] at hafter
  simp only [if_true] at hafter
  obtain ⟨hin', hprev⟩ := observeStateChanges_inStep
    (step (run (step toolbar (Step.addButton o h)) steps) s).editor b' hin
  refine ⟨_, hafter, (observeStateChanges_registration _ b').2.2.trans hq, ?_⟩
  rw [hin'.2, hprev, hq]

theorem selected_class_follows_query_witness :
    ∃ b : Button Bool,
      (step (run (step freshToolbar
          (Step.addButton { name := none, label := some "Bold", handler := none, query := none }
            none)) [Step.cursormove true]) (Step.click 0)).element[freshToolbar.element.length]?
        = some (Control.button b) ∧
      b.query = buttonStateHandler "bold"
        { name := some "bold", label := some "Bold", handler := none, query := none } ∧
      ("selected" ∈ b.element.className ↔
        buttonStateHandler "bold"
          { name := some "bold", label := some "Bold", handler := none, query := none }
          (step (run (step freshToolbar
            (Step.addButton
              { name := none, label := some "Bold", handler := none, query := none }
              none)) [Step.cursormove true]) (Step.click 0)).editor = true) :=
  selected_class_follows_query freshToolbar
    { name := none, label := some "Bold", handler := none, query := none } none "bold"
    [Step.cursormove true] (Step.click 0) rfl (by decide) rfl

/-! ## Visual updates happen on changes only -/

/-- One run of a button's observer: the query result is cached, and
`updateButtonState` is called with it exactly when it differs from the state
cached before. -/
theorem observeStateChanges_step {σ : Type} (editor : Editor σ) (b : Button σ) :
    (observeStateChanges editor b).previousState = b.query editor ∧
      (observeStateChanges editor b).updates =
        (if b.query editor != b.previousState then b.updates ++ [b.query editor]
         else b.updates) ∧
      (observeStateChanges editor b).element =
        (if b.query editor != b.previousState then
          updateButtonState b.element b.name (b.query editor)
         else b.element) := by
  simp only [observeStateChanges]
  by_cases hne : (b.query editor != b.previousState) = true
  · simp only [hne, if_true, and_self]
  · have heq : b.query editor = b.previousState := by
      cases hq : b.query editor <;> cases hprev : b.previousState <;>
        simp [hq, hprev] at hne ⊢
    simp only [hne]
    exact ⟨heq.symm, rfl, rfl⟩

theorem run_button {σ : Type} (steps : List (Step σ)) (toolbar : Toolbar σ) (i : Nat)
    (b : Button σ) (hb : toolbar.element[i]? = some (Control.button b)) :
    (run toolbar steps).element[i]? =
      some (Control.button
        ((deliveries toolbar steps).foldl (fun b editor => observeStateChanges editor b) b)) := by
  induction steps generalizing toolbar b with
  | nil => exact hb
  | cons s steps ih =>
    rw [run_cons, ih (step toolbar s) _ (step_button toolbar s i b hb)]
    cases hd : delivers toolbar s <;> simp [deliveries, hd]

theorem foldl_observeStateChanges {σ : Type} (editors : List (Editor σ)) (b : Button σ) :
    (editors.foldl (fun b editor => observeStateChanges editor b) b).updates =
        b.updates ++ dueUpdates b.previousState (editors.map b.query) ∧
      (editors.foldl (fun b editor => observeStateChanges editor b) b).previousState =
        ((editors.map b.query).getLast?).getD b.previousState ∧
      (editors.foldl (fun b editor => observeStateChanges editor b) b).query = b.query := by
  induction editors generalizing b with
  | nil => simp [dueUpdates]
  | cons editor editors ih =>
    obtain ⟨h1, h2, h3⟩ := ih (observeStateChanges editor b)
    obtain ⟨g1, g2, _⟩ := observeStateChanges_step editor b
    have gq := (observeStateChanges_registration editor b).2.2
    simp only [List.foldl_cons, h1, h2, h3, gq, g1, g2, List.map_cons, dueUpdates]
    refine ⟨?_, ?_, trivial⟩
    · split <;> simp
    · rw [List.getLast?_cons]
      cases hl : (editors.map b.query).getLast? <;> simp

theorem dueUpdates_of_chain (cached : Bool) (results : List Bool)
    (hc : List.Chain (fun a b => a ≠ b) cached results) :
    dueUpdates cached results = results := by
  induction results generalizing cached with
  | nil => rfl
  | cons r rs ih =>
    obtain ⟨hr, hrest⟩ := List.chain_cons.mp hc
    have hne : (r != cached) = true := by simpa using Ne.symm hr
    simp only [dueUpdates, hne, if_true, ih r hrest]

/-- C4: for a button registered by `addButton`, with `results` the answers of
its query handler at the notifications delivered since, in order: the cache
starts at false and holds the last answer; `updateButtonState` was called
exactly at the answers that differ from the one cached before them; when the
answers strictly alternate true, false, true, ... it was called at every
notification; and at the next notification it is called, and the element
changed, if and only if the answer differs from the cached one, so an answer
that repeats the cached one brings no visual update. -/
theorem updates_follow_state_changes {σ : Type} (toolbar : Toolbar σ) (o : ButtonOptions σ)
    (h : Option (Handler σ)) (n : String) (steps : List (Step σ))
    (hn : defaultName toolbar.host o.name o.label = .ok n) :
    ∃ b : Button σ,
      (run (step toolbar (Step.addButton o h)) steps).element[toolbar.element.length]?
        = some (Control.button b) ∧
      b.updates = dueUpdates false
        ((deliveries (step toolbar (Step.addButton o h)) steps).map
          (buttonStateHandler n { o with name := some n })) ∧
      b.previousState =
        (((deliveries (step toolbar (Step.addButton o h)) steps).map
          (buttonStateHandler n { o with name := some n })).getLast?).getD false ∧
      (List.Chain (fun a b => a ≠ b) false
          ((deliveries (step toolbar (Step.addButton o h)) steps).map
            (buttonStateHandler n { o with name := some n })) →
        b.updates =
          (deliveries (step toolbar (Step.addButton o h)) steps).map
            (buttonStateHandler n { o with name := some n })) ∧
      (∀ s : Step σ, delivers (run (step toolbar (Step.addButton o h)) steps) s = true →
        ∃ b' : Button σ,
          (step (run (step toolbar (Step.addButton o h)) steps) s).element[toolbar.element.length]?
            = some (Control.button b') ∧
          b'.previousState =
            buttonStateHandler n { o with name := some n }
              (step (run (step toolbar (Step.addButton o h)) steps) s).editor ∧
          b'.updates =
            (if buttonStateHandler n { o with name := some n }
                (step (run (step toolbar (Step.addButton o h)) steps) s).editor
                != b.previousState
             then b.updates ++
               [buttonStateHandler n { o with name := some n }
                 (step (run (step toolbar (Step.addButton o h)) steps) s).editor]
             else b.updates) ∧
          b'.element =
            (if buttonStateHandler n { o with name := some n }
                (step (run (step toolbar (Step.addButton o h)) steps) s).editor
                != b.previousState
             then updateButtonState b.element n
               (buttonStateHandler n { o with name := some n }
                 (step (run (step toolbar (Step.addButton o h)) steps) s).editor)
             else b.element)) := by
  have hstep := step_addButton_registered toolbar o h n hn
  have hrun := run_button steps _ _ _ hstep
  obtain ⟨h1, h2, h3⟩ := foldl_observeStateChanges
    (deliveries (step toolbar (Step.addButton o h)) steps)
    { element := createButtonElement toolbar.host n o.label
      name := n
      handler := buttonHandler n { o with name := some n }
      query := buttonStateHandler n { o with name := some n }
      previousState := false
      updates := [] }
  have hname := (run_button_invariant (fun b => b.name = n)
    (fun editor b hb => (observeStateChanges_registration editor b).1.trans hb)
    steps _ _ _ hstep rfl)
  obtain ⟨bn, hbn, hbname⟩ := hname
  rw [hrun] at hbn
  cases hbn
  refine ⟨_, hrun, ?_, h2, ?_, ?_⟩
  · simpa using h1
  · intro hc
    rw [h1]
    simpa using dueUpdates_of_chain false _ hc
  · intro s hd
    have hafter := step_button _ s _ _ hrun
    rw [hd] at hafter
    simp only [if_true] at hafter
    refine ⟨_, hafter, ?_⟩
    have hs := observeStateChanges_step
      (step (run (step toolbar (Step.addButton o h)) steps) s).editor
      ((deliveries (step toolbar (Step.addButton o h)) steps).foldl
        (fun b editor => observeStateChanges editor b)
        { element := createButtonElement toolbar.host n o.label
          name := n
          handler := buttonHandler n { o with name := some n }
          query := buttonStateHandler n { o with name := some n }
          previousState := false
          updates := [] })
    rw [h3, hbname] at hs
    exact hs

theorem updates_follow_state_changes_witness :
    ∃ b : Button Bool,
      (run (step freshToolbar
          (Step.addButton { name := none, label := some "Bold", handler := none, query := none }
            none))
        [Step.cursormove true, Step.cursormove true, Step.cursormove false,
         Step.click 0]).element[freshToolbar.element.length]?
        = some (Control.button b) ∧
      b.updates = [true, false, true] :=
  match updates_follow_state_changes freshToolbar
    { name := none, label := some "Bold", handler := none, query := none } none "bold"
    [Step.cursormove true, Step.cursormove true, Step.cursormove false, Step.click 0] rfl with
  | ⟨b, hb, hu, _⟩ => ⟨b, hb, hu.trans rfl⟩

end WysiHat
